import Mathlib

/-!
Verification of the Download Coordination subsystem (`src/services/cache.ts`,
class `DownloadManager`).  The TypeScript is shallowly embedded: the pure
progress-tracker arithmetic becomes rational-number functions, the coordinator
becomes an explicit state machine over an event trace (one event per atomic
synchronous section of the JavaScript event loop), and callback exceptions are
modelled as `Option String` results.
-/

namespace SigmaCache

/-- The `status` union of the `DownloadProgress` interface:
`'pending' | 'downloading' | 'completed' | 'error'`. -/
inductive Status where
  | pending
  | downloading
  | completed
  | error
deriving DecidableEq

def Status.isTerminal : Status → Bool
  | .completed => true
  | .error => true
  | _ => false

/-- Forward order on statuses: `pending < downloading < terminal`. -/
def Status.rank : Status → Nat
  | .pending => 0
  | .downloading => 1
  | .completed => 2
  | .error => 2

/-- The `DownloadProgress` record of `cache.ts` (lines 114-123).  Numeric
fields that JavaScript holds as floats are embedded as rationals; `loaded`
and `total` are byte counts. -/
structure DownloadProgress where
  modelId : String
  status : Status
  progress : ℚ
  loaded : Int
  total : Int
  speed : ℚ
  eta : ℚ
  error : Option String
deriving DecidableEq

/-- The fresh `progressData` object built at lines 146-154: note the status
is `'downloading'`, not `'pending'`. -/
def freshPd (id : String) : DownloadProgress :=
  ⟨id, Status.downloading, 0, 0, 0, 0, 0, none⟩

/-- One raw sample delivered by the pipeline's `progress_callback`.  The
tracker at line 167 only acts when `progress.status === 'progress'` and
`progress.file` is truthy. -/
structure RawSample where
  isProgressStatus : Bool
  hasFile : Bool
  loaded : Int
  total : Int
deriving DecidableEq

/-- The closure variables `lastLoaded` / `lastTime` of `downloadModel`
(lines 163-164). -/
structure TrackerState where
  lastLoaded : Int
  lastTime : Int
deriving DecidableEq

/-- The `progressTracker` closure (lines 166-186): derives speed and eta from
the delta to the previous sample, overwrites the progress record with the raw
sample's values, and reports whether subscribers are notified. -/
def trackerUpdate (ts : TrackerState) (now : Int) (s : RawSample)
    (pd : DownloadProgress) : TrackerState × DownloadProgress × Bool :=
  if s.isProgressStatus && s.hasFile then
    let timeDelta : ℚ := ((now : ℚ) - (ts.lastTime : ℚ)) / 1000
    let loadedDelta : ℚ := (s.loaded : ℚ) - (ts.lastLoaded : ℚ)
    let speed : ℚ := if 0 < timeDelta then loadedDelta / timeDelta else 0
    let remaining : ℚ := (s.total : ℚ) - (s.loaded : ℚ)
    let eta : ℚ := if 0 < speed then remaining / speed else 0
    let pd' : DownloadProgress :=
      { pd with
        progress := ((s.loaded : ℚ) / (s.total : ℚ)) * 100
        loaded := s.loaded
        total := s.total
        speed := speed
        eta := eta }
    (⟨s.loaded, now⟩, pd', true)
  else (ts, pd, false)

/-- Fold the tracker over a timed sample stream (one fetch lifetime). -/
def runTracker (ts : TrackerState) (pd : DownloadProgress) :
    List (Int × RawSample) → TrackerState × DownloadProgress
  | [] => (ts, pd)
  | (t, s) :: rest =>
      let r := trackerUpdate ts t s pd
      runTracker r.1 r.2.1 rest

/-! ### Subscriber callbacks and the notification / completion paths

A subscriber callback may throw; a throwing call is modelled by `some msg`
(the thrown `Error`'s message), a normal return by `none`. -/

/-- A registered `ProgressCallback`, with throwing behaviour made explicit. -/
def CallbackFn : Type := DownloadProgress → Option String

/-- `notifyProgress` body (lines 216-219): `callbacks.forEach((cb) => cb(progress))`.
`forEach` invokes the callbacks in registration order and an exception thrown
by one of them aborts the iteration and escapes.  Returns the indices (from
`i`) of the callbacks that were invoked, and the escaping exception if any. -/
def runCbsFrom (i : Nat) : List CallbackFn → DownloadProgress → List Nat × Option String
  | [], _ => ([], none)
  | cb :: rest, pd =>
    match cb pd with
    | some msg => ([i], some msg)
    | none =>
      let r := runCbsFrom (i + 1) rest pd
      (i :: r.1, r.2)

def runCbs (cbs : List CallbackFn) (pd : DownloadProgress) : List Nat × Option String :=
  runCbsFrom 0 cbs pd

/-- Result of the tail of `downloadModel` after the pipeline promise resolves
(lines 192-207): the final progress record, which callback indices were
invoked, the outcome seen by the original caller (`Except` failure payload is
`some msg` for an `Error`, `none` for a non-`Error` throw), and whether the
`finally` block scheduled eviction. -/
structure CompleteResult where
  pd : DownloadProgress
  ran : List Nat
  outcome : Except (Option String) (Option Nat)
  evictionScheduled : Bool

/-- The success path of `downloadModel` (lines 192-207): set `completed` /
`progress = 100`, call `notifyProgress`, and return the model.  An exception
thrown by a subscriber during that notification is caught by the `catch`
block, which flips the state to `error` with the exception's message,
notifies again, and rethrows; the `finally` block schedules eviction in
every case. -/
def completeModel (cbs : List CallbackFn) (pd : DownloadProgress) (handle : Nat) :
    CompleteResult :=
  let pd1 := { pd with status := Status.completed, progress := 100 }
  let r1 := runCbs cbs pd1
  match r1.2 with
  | none => ⟨pd1, r1.1, Except.ok (some handle), true⟩
  | some msg =>
    let pd2 := { pd1 with status := Status.error, error := some msg }
    let r2 := runCbs cbs pd2
    match r2.2 with
    | none => ⟨pd2, r1.1 ++ r2.1, Except.error (some msg), true⟩
    | some msg2 => ⟨pd2, r1.1 ++ r2.1, Except.error (some msg2), true⟩

/-! ### The coordinator state machine

`DownloadManager` is driven by the browser event loop: every synchronous
section is atomic.  The relevant atomic sections are (a) the synchronous
prefix of `downloadModel` up to the `await pipeline(...)`, (b) one
`progress_callback` invocation, (c) the resumption after the pipeline promise
settles (success or failure), and (d) one `checkStatus` tick of a joiner's
polling loop in `waitForDownload`.  Each becomes one `Event`.  JavaScript
object identity matters: every `downloadModel` invocation that starts a fetch
owns one `progressData` object, which the `activeDownloads` map references;
the map entry can be deleted (or replaced) while the closure keeps mutating
its own object.  `FetchState` is that per-invocation object, and the
`downloads` association list maps a model id to the index of the referenced
fetch.  Subscriber callbacks are carried as opaque tokens at this layer
(assumed non-throwing; `runCbs` / `completeModel` model throwing ones). -/

instance {α β : Type} [DecidableEq α] [DecidableEq β] : DecidableEq (Except α β) := by
  intro a b
  cases a <;> cases b
  case ok.ok x y =>
    exact if h : x = y then Decidable.isTrue (by rw [h]) else
      Decidable.isFalse (by intro hc; cases hc; exact h rfl)
  case error.error x y =>
    exact if h : x = y then Decidable.isTrue (by rw [h]) else
      Decidable.isFalse (by intro hc; cases hc; exact h rfl)
  case ok.error x y => exact Decidable.isFalse (by intro hc; cases hc)
  case error.ok x y => exact Decidable.isFalse (by intro hc; cases hc)

/-- One `downloadModel` invocation that reached the fetch-starting branch:
its `progressData` object, its tracker closure variables, whether the
`pipeline` promise is still unsettled, and the settled outcome of the
original caller's promise. -/
structure FetchState where
  pd : DownloadProgress
  tracker : TrackerState
  inFlight : Bool
  outcome : Option (Except (Option String) (Option Nat))
deriving DecidableEq

/-- One caller parked in `waitForDownload` (lines 221-241): the id it polls
and its settled outcome, `Except.ok none` standing for `resolve(null)`. -/
structure JoinerState where
  modelId : String
  outcome : Option (Except String (Option Nat))
deriving DecidableEq

/-- Association-list lookup, `Map.get` semantics. -/
def mlookup {α : Type} : List (String × α) → String → Option α
  | [], _ => none
  | (k, v) :: rest, key => if k = key then some v else mlookup rest key

/-- Association-list insert/overwrite, `Map.set` semantics. -/
def mset {α : Type} : List (String × α) → String → α → List (String × α)
  | [], key, v => [(key, v)]
  | (k, w) :: rest, key, v =>
      if k = key then (key, v) :: rest else (k, w) :: mset rest key v

/-- Association-list removal, `Map.delete` semantics. -/
def mdel {α : Type} : List (String × α) → String → List (String × α)
  | [], _ => []
  | (k, w) :: rest, key => if k = key then mdel rest key else (k, w) :: mdel rest key

/-- The whole `DownloadManager` plus event-loop bookkeeping: all fetch
invocations ever started, the `activeDownloads` references, the `callbacks`
registry (tokens), the parked joiners, the pending eviction timers
`(modelId, fireTime)` from the `finally` block, the `notifyProgress` call
log `(modelId, snapshot)`, and the clock. -/
structure SysState where
  fetches : List FetchState
  downloads : List (String × Nat)
  subscribers : List (String × List Nat)
  joiners : List JoinerState
  evictions : List (String × Nat)
  log : List (String × DownloadProgress)
  now : Nat
deriving DecidableEq

def SysState.init : SysState := ⟨[], [], [], [], [], [], 0⟩

/-- `getProgress` (lines 243-245): dereference the map entry. -/
def getProgress (s : SysState) (id : String) : Option DownloadProgress :=
  (mlookup s.downloads id).bind (fun f => (s.fetches.get? f).map (fun fs => fs.pd))

/-- Number of fetch invocations ever started for `id` (each `pipeline` call
creates exactly one `FetchState`). -/
def fetchCount (s : SysState) (id : String) : Nat :=
  (s.fetches.filter (fun fs => decide (fs.pd.modelId = id))).length

/-- `addProgressCallback` (lines 210-214): append a fresh token to the id's
list. -/
def addSub (subs : List (String × List Nat)) (id : String) : List (String × List Nat) :=
  let existing := (mlookup subs id).getD []
  mset subs id (existing ++ [existing.length])

/-- An atomic section of the event loop. -/
inductive Event where
  | request (id : String) (hasCb : Bool)
  | sample (f : Nat) (raw : RawSample)
  | complete (f : Nat) (handle : Nat)
  | fail (f : Nat) (e : Option String)
  | poll (j : Nat)
deriving DecidableEq

/-- The synchronous prefix of `downloadModel` when the guard at lines 136-144
does not join: create `progressData` with status `'downloading'`, store it in
`activeDownloads`, register the callback, and enter the `try` block (the
`pipeline` call is now in flight; `lastLoaded = 0`, `lastTime = Date.now()`). -/
def startFetch (s : SysState) (id : String) (hasCb : Bool) : SysState :=
  { s with
    fetches := s.fetches ++ [⟨freshPd id, ⟨0, (s.now : Int)⟩, true, none⟩]
    downloads := mset s.downloads id s.fetches.length
    subscribers := if hasCb then addSub s.subscribers id else s.subscribers }

/-- The synchronous prefix of `downloadModel` (lines 136-160): join an entry
whose status is `'downloading'` (register the callback and park in
`waitForDownload`), otherwise — no entry, or a terminal entry — fall through
and start a fresh fetch. -/
def procRequest (s : SysState) (id : String) (hasCb : Bool) : SysState :=
  match mlookup s.downloads id with
  | some f =>
    match s.fetches.get? f with
    | some fs =>
      if fs.pd.status = Status.downloading then
        { s with
          subscribers := if hasCb then addSub s.subscribers id else s.subscribers
          joiners := s.joiners ++ [⟨id, none⟩] }
      else startFetch s id hasCb
    | none => startFetch s id hasCb
  | none => startFetch s id hasCb

/-- One `progress_callback` invocation on fetch `f` (only possible while the
pipeline promise is unsettled): run `progressTracker` on the fetch's own
`progressData` object and log the `notifyProgress` call when it fires. -/
def procSample (s : SysState) (f : Nat) (raw : RawSample) : SysState :=
  match s.fetches.get? f with
  | some fs =>
    if fs.inFlight then
      let r := trackerUpdate fs.tracker (s.now : Int) raw fs.pd
      { s with
        fetches := s.fetches.set f { fs with pd := r.2.1, tracker := r.1 }
        log := if r.2.2 then s.log ++ [(r.2.1.modelId, r.2.1)] else s.log }
    else s
  | none => s

/-- The pipeline promise of fetch `f` resolves (lines 192-196, 202-207):
status `'completed'`, `progress = 100`, notify, resolve the original caller
with the model handle, and schedule eviction 5000 ms out. -/
def procComplete (s : SysState) (f : Nat) (handle : Nat) : SysState :=
  match s.fetches.get? f with
  | some fs =>
    if fs.inFlight then
      let pd' := { fs.pd with status := Status.completed, progress := 100 }
      { s with
        fetches := s.fetches.set f
          { fs with pd := pd', inFlight := false, outcome := some (Except.ok (some handle)) }
        log := s.log ++ [(pd'.modelId, pd')]
        evictions := s.evictions ++ [(pd'.modelId, s.now + 5000)] }
    else s
  | none => s

/-- `error instanceof Error ? error.message : 'Unknown error'` (line 199). -/
def errMsgOf : Option String → String
  | some m => m
  | none => "Unknown error"

/-- The pipeline promise of fetch `f` rejects (lines 197-207): status
`'error'`, record the message, notify, rethrow to the original caller, and
schedule eviction 5000 ms out. -/
def procFail (s : SysState) (f : Nat) (e : Option String) : SysState :=
  match s.fetches.get? f with
  | some fs =>
    if fs.inFlight then
      let pd' := { fs.pd with status := Status.error, error := some (errMsgOf e) }
      { s with
        fetches := s.fetches.set f
          { fs with pd := pd', inFlight := false, outcome := some (Except.error e) }
        log := s.log ++ [(pd'.modelId, pd')]
        evictions := s.evictions ++ [(pd'.modelId, s.now + 5000)] }
    else s
  | none => s

/-- JavaScript `x || d` on an optional string: the empty string is falsy. -/
def jsOrDefault (o : Option String) (d : String) : String :=
  match o with
  | some m => if m = "" then d else m
  | none => d

/-- One `checkStatus` evaluation (lines 223-237) against the current map:
absent entry rejects with `'Download cancelled'`, `completed` resolves with
`null`, `error` rejects with `progress.error || 'Download failed'`, and
`downloading` keeps polling. -/
def pollOutcome (s : SysState) (id : String) : Option (Except String (Option Nat)) :=
  match getProgress s id with
  | none => some (Except.error "Download cancelled")
  | some pd =>
    match pd.status with
    | Status.completed => some (Except.ok none)
    | Status.error => some (Except.error (jsOrDefault pd.error "Download failed"))
    | _ => none

/-- One polling tick of joiner `j`; a settled joiner's loop has stopped, so
further ticks are no-ops. -/
def procPoll (s : SysState) (j : Nat) : SysState :=
  match s.joiners.get? j with
  | some js =>
    match js.outcome with
    | some _ => s
    | none =>
      match pollOutcome s js.modelId with
      | some o => { s with joiners := s.joiners.set j { js with outcome := some o } }
      | none => s
  | none => s

/-- Fire every due eviction timer (the `setTimeout` bodies at lines 203-206):
each deletes its model id's `activeDownloads` and `callbacks` entries
unconditionally. -/
def fireDue (s : SysState) : SysState :=
  let dueIds := (s.evictions.filter (fun p => decide (p.2 ≤ s.now))).map (fun p => p.1)
  { s with
    downloads := dueIds.foldl mdel s.downloads
    subscribers := dueIds.foldl mdel s.subscribers
    evictions := s.evictions.filter (fun p => decide (¬ p.2 ≤ s.now)) }

/-- Process one timed event: advance the clock, fire due eviction timers,
then run the event's atomic section. -/
def step (s : SysState) (te : Nat × Event) : SysState :=
  let s1 := fireDue { s with now := max s.now te.1 }
  match te.2 with
  | Event.request id hasCb => procRequest s1 id hasCb
  | Event.sample f raw => procSample s1 f raw
  | Event.complete f h => procComplete s1 f h
  | Event.fail f e => procFail s1 f e
  | Event.poll j => procPoll s1 j

/-- Run a whole event trace. -/
def run (s : SysState) : List (Nat × Event) → SysState
  | [] => s
  | te :: rest => run (step s te) rest

/-! ### Association-list lemmas -/

theorem mlookup_mset_self {α : Type} (l : List (String × α)) (k : String) (v : α) :
    mlookup (mset l k v) k = some v := by
  induction l with
  | nil => simp [mset, mlookup]
  | cons hd tl ih =>
    by_cases h : hd.1 = k
    · simp [mset, h, mlookup]
    · simpa [mset, h, mlookup] using ih

theorem mlookup_mset_ne {α : Type} (l : List (String × α)) (k k' : String) (v : α)
    (h : k' ≠ k) : mlookup (mset l k v) k' = mlookup l k' := by
  have hkk : ¬ k = k' := fun hh => h hh.symm
  induction l with
  | nil => simp [mset, mlookup, hkk]
  | cons hd tl ih =>
    obtain ⟨k0, w⟩ := hd
    by_cases hk : k0 = k
    · subst hk
      simp [mset, mlookup, hkk]
    · simp [mset, hk, mlookup, ih]

theorem mlookup_mdel_ne {α : Type} (l : List (String × α)) (k k' : String)
    (h : k' ≠ k) : mlookup (mdel l k) k' = mlookup l k' := by
  induction l with
  | nil => simp [mdel]
  | cons hd tl ih =>
    obtain ⟨k0, w⟩ := hd
    by_cases hk : k0 = k
    · subst hk
      have hkk' : ¬ k0 = k' := fun hh => h hh.symm
      simp [mdel, mlookup, hkk', ih]
    · simp [mdel, hk, mlookup, ih]

theorem mlookup_mdel_self {α : Type} (l : List (String × α)) (k : String) :
    mlookup (mdel l k) k = none := by
  induction l with
  | nil => simp [mdel, mlookup]
  | cons hd tl ih =>
    by_cases hk : hd.1 = k
    · simpa [mdel, hk] using ih
    · simp [mdel, hk, mlookup, ih]

theorem mlookup_foldl_mdel_of_ne {α : Type} (keys : List String)
    (l : List (String × α)) (k : String) (h : ∀ d ∈ keys, d ≠ k) :
    mlookup (keys.foldl mdel l) k = mlookup l k := by
  induction keys generalizing l with
  | nil => rfl
  | cons d rest ih =>
    have hd : d ≠ k := h d (by simp)
    rw [List.foldl_cons, ih (mdel l d) (fun x hx => h x (by simp [hx])),
      mlookup_mdel_ne l d k (fun hh => hd hh.symm)]

theorem mlookup_foldl_mdel_none {α : Type} (keys : List String)
    (l : List (String × α)) (k : String) (h : mlookup l k = none) :
    mlookup (keys.foldl mdel l) k = none := by
  induction keys generalizing l with
  | nil => exact h
  | cons d rest ih =>
    rw [List.foldl_cons]
    refine ih (mdel l d) ?_
    by_cases hk : k = d
    · subst hk; exact mlookup_mdel_self l k
    · rw [mlookup_mdel_ne l d k hk]; exact h

theorem mlookup_foldl_mdel_mem {α : Type} (keys : List String)
    (l : List (String × α)) (k : String) (h : k ∈ keys) :
    mlookup (keys.foldl mdel l) k = none := by
  induction keys generalizing l with
  | nil => cases h
  | cons d rest ih =>
    rw [List.foldl_cons]
    by_cases hk : k = d
    · subst hk
      exact mlookup_foldl_mdel_none rest (mdel l k) k (mlookup_mdel_self l k)
    · exact ih (mdel l d) (by rcases List.mem_cons.mp h with h' | h' <;> [exact absurd h' hk; exact h'])

theorem mlookup_foldl_mdel_or {α : Type} (keys : List String)
    (l : List (String × α)) (k : String) :
    mlookup (keys.foldl mdel l) k = none ∨ mlookup (keys.foldl mdel l) k = mlookup l k := by
  by_cases h : k ∈ keys
  · exact Or.inl (mlookup_foldl_mdel_mem keys l k h)
  · exact Or.inr (mlookup_foldl_mdel_of_ne keys l k (fun d hd hdk => h (hdk ▸ hd)))

/-! ### Small facts about the embedded operations -/

theorem trackerUpdate_status (ts : TrackerState) (now : Int) (s : RawSample)
    (pd : DownloadProgress) : ((trackerUpdate ts now s pd).2.1).status = pd.status := by
  unfold trackerUpdate
  split <;> rfl

theorem trackerUpdate_modelId (ts : TrackerState) (now : Int) (s : RawSample)
    (pd : DownloadProgress) : ((trackerUpdate ts now s pd).2.1).modelId = pd.modelId := by
  unfold trackerUpdate
  split <;> rfl

/-- Replacing an element by one with the same filter-value keeps the filtered
length. -/
theorem filter_length_set {α : Type} (p : α → Bool) :
    ∀ (l : List α) (i : Nat) (a b : α), l.get? i = some a → p a = p b →
    ((l.set i b).filter p).length = (l.filter p).length := by
  intro l
  induction l with
  | nil => intro i a b h _; cases i <;> cases h
  | cons hd tl ih =>
    intro i a b h hab
    cases i with
    | zero =>
      rw [show (hd :: tl).get? 0 = some hd from rfl] at h
      injection h with hda
      subst hda
      rw [show (hd :: tl).set 0 b = b :: tl from rfl]
      by_cases hp : p hd = true
      · have hpb : p b = true := hab ▸ hp
        simp [List.filter_cons, hp, hpb]
      · have hpb : ¬ p b = true := fun hc => hp (hab ▸ hc)
        simp [List.filter_cons, hp, hpb]
    | succ n =>
      rw [show (hd :: tl).get? (n + 1) = tl.get? n from rfl] at h
      rw [show (hd :: tl).set (n + 1) b = hd :: tl.set n b from rfl]
      by_cases hp : p hd = true
      · simp [List.filter_cons, hp, ih n a b h hab]
      · simp [List.filter_cons, hp, ih n a b h hab]

/-- A zero filter-count means no member satisfies the predicate. -/
theorem filter_length_zero_not_mem {α : Type} (p : α → Bool) (l : List α)
    (h : (l.filter p).length = 0) : ∀ a ∈ l, p a = false := by
  intro a ha
  by_contra hc
  have hp : p a = true := by
    cases hpa : p a
    · exact absurd hpa hc
    · rfl
  have hmem : a ∈ l.filter p := List.mem_filter.mpr ⟨ha, hp⟩
  have hnil : l.filter p = [] := List.length_eq_zero.mp h
  rw [hnil] at hmem
  cases hmem

/-! ### Deduplication invariant machinery -/

/-- Does the event settle the pipeline promise of a fetch for `id`?
(Evaluated against the pre-step fetch list; `fireDue` never changes it.) -/
def terminalForB (s : SysState) (id : String) : Event → Bool
  | Event.complete f _ =>
      (match s.fetches.get? f with
       | some fs => decide (fs.pd.modelId = id)
       | none => false)
  | Event.fail f _ =>
      (match s.fetches.get? f with
       | some fs => decide (fs.pd.modelId = id)
       | none => false)
  | _ => false

/-- No fetch for `id` reaches a terminal status anywhere along the trace. -/
def noTerminalForB (id : String) : SysState → List (Nat × Event) → Bool
  | _, [] => true
  | s, te :: rest => (!(terminalForB s id te.2)) && noTerminalForB id (step s te) rest

/-- Number of `requestDownload` calls for `id` in the trace. -/
def requestsFor (id : String) (tr : List (Nat × Event)) : Nat :=
  (tr.filter (fun te =>
    match te.2 with
    | Event.request i _ => decide (i = id)
    | _ => false)).length

/-- No state for `id`: nothing fetched yet, no pending eviction timer. -/
def absentInv (s : SysState) (id : String) : Prop :=
  mlookup s.downloads id = none ∧ fetchCount s id = 0 ∧ ∀ p ∈ s.evictions, p.1 ≠ id

/-- Exactly one fetch for `id` was ever started, the map references it, it is
still `'downloading'`, and no eviction timer for `id` is pending. -/
def dedupInv (s : SysState) (id : String) : Prop :=
  (∃ f fs, mlookup s.downloads id = some f ∧ s.fetches.get? f = some fs ∧
     fs.pd.modelId = id ∧ fs.pd.status = Status.downloading) ∧
  fetchCount s id = 1 ∧ ∀ p ∈ s.evictions, p.1 ≠ id

theorem fireDue_absent (s : SysState) (id : String) (h : absentInv s id) :
    absentInv (fireDue s) id := by
  obtain ⟨hl, hc, he⟩ := h
  refine ⟨mlookup_foldl_mdel_none _ _ _ hl, hc, ?_⟩
  intro p hp
  exact he p (List.mem_filter.mp hp).1

theorem fireDue_dedup (s : SysState) (id : String) (h : dedupInv s id) :
    dedupInv (fireDue s) id := by
  obtain ⟨⟨f, fs, hl, hg, hm, hs⟩, hc, he⟩ := h
  have hdue : ∀ d ∈ (s.evictions.filter (fun p => decide (p.2 ≤ s.now))).map
      (fun p => p.1), d ≠ id := by
    intro d hd
    obtain ⟨p, hp, hpd⟩ := List.mem_map.mp hd
    exact hpd ▸ he p (List.mem_filter.mp hp).1
  refine ⟨⟨f, fs, ?_, hg, hm, hs⟩, hc, ?_⟩
  · rw [show (fireDue s).downloads =
      ((s.evictions.filter (fun p => decide (p.2 ≤ s.now))).map (fun p => p.1)).foldl
        mdel s.downloads from rfl]
    rw [mlookup_foldl_mdel_of_ne _ _ _ hdue]
    exact hl
  · intro p hp
    exact he p (List.mem_filter.mp hp).1

theorem procRequest_join (s : SysState) (id : String) (cb : Bool) (f : Nat)
    (fs : FetchState) (hl : mlookup s.downloads id = some f)
    (hg : s.fetches.get? f = some fs) (hs : fs.pd.status = Status.downloading) :
    procRequest s id cb =
      { s with
        subscribers := if cb then addSub s.subscribers id else s.subscribers
        joiners := s.joiners ++ [⟨id, none⟩] } := by
  unfold procRequest
  simp only [hl, hg, if_pos hs]

theorem procRequest_start_none (s : SysState) (id : String) (cb : Bool)
    (hl : mlookup s.downloads id = none) : procRequest s id cb = startFetch s id cb := by
  unfold procRequest
  simp only [hl]

theorem procRequest_start_term (s : SysState) (id : String) (cb : Bool) (f : Nat)
    (fs : FetchState) (hl : mlookup s.downloads id = some f)
    (hg : s.fetches.get? f = some fs) (hs : fs.pd.status ≠ Status.downloading) :
    procRequest s id cb = startFetch s id cb := by
  unfold procRequest
  simp only [hl, hg, if_neg hs]

theorem procRequest_start_dangling (s : SysState) (id : String) (cb : Bool) (f : Nat)
    (hl : mlookup s.downloads id = some f) (hg : s.fetches.get? f = none) :
    procRequest s id cb = startFetch s id cb := by
  unfold procRequest
  simp only [hl, hg]

theorem fetchCount_startFetch_ne (s : SysState) (id id' : String) (cb : Bool)
    (hne : id' ≠ id) : fetchCount (startFetch s id' cb) id = fetchCount s id := by
  show ((s.fetches ++ [(⟨freshPd id', ⟨0, (s.now : Int)⟩, true, none⟩ : FetchState)]).filter
      (fun fs : FetchState => decide (fs.pd.modelId = id))).length = fetchCount s id
  rw [List.filter_append, List.length_append]
  have hz : (([⟨freshPd id', ⟨0, (s.now : Int)⟩, true, none⟩] : List FetchState).filter
      (fun fs => decide (fs.pd.modelId = id))).length = 0 := by
    simp [freshPd, hne]
  rw [hz]
  rfl

theorem startFetch_absent_other (s : SysState) (id id' : String) (cb : Bool)
    (hne : id' ≠ id) (h : absentInv s id) : absentInv (startFetch s id' cb) id := by
  obtain ⟨hl, hc, he⟩ := h
  refine ⟨?_, ?_, he⟩
  · rw [show (startFetch s id' cb).downloads = mset s.downloads id' s.fetches.length
      from rfl]
    rw [mlookup_mset_ne _ _ _ _ (fun hh => hne hh.symm)]
    exact hl
  · rw [fetchCount_startFetch_ne s id id' cb hne]
    exact hc

theorem startFetch_dedup_other (s : SysState) (id id' : String) (cb : Bool)
    (hne : id' ≠ id) (h : dedupInv s id) : dedupInv (startFetch s id' cb) id := by
  obtain ⟨⟨f, fs, hl, hg, hm, hs⟩, hc, he⟩ := h
  have hflt : f < s.fetches.length := (List.get?_eq_some.mp hg).1
  refine ⟨⟨f, fs, ?_, ?_, hm, hs⟩, ?_, he⟩
  · rw [show (startFetch s id' cb).downloads = mset s.downloads id' s.fetches.length
      from rfl]
    rw [mlookup_mset_ne _ _ _ _ (fun hh => hne hh.symm)]
    exact hl
  · rw [show (startFetch s id' cb).fetches =
      s.fetches ++ [⟨freshPd id', ⟨0, (s.now : Int)⟩, true, none⟩] from rfl]
    rw [List.get?_append hflt]
    exact hg
  · rw [fetchCount_startFetch_ne s id id' cb hne]
    exact hc

theorem procRequest_absent_other (s : SysState) (id id' : String) (cb : Bool)
    (hne : id' ≠ id) (h : absentInv s id) : absentInv (procRequest s id' cb) id := by
  rcases hl : mlookup s.downloads id' with _ | f
  · rw [procRequest_start_none s id' cb hl]
    exact startFetch_absent_other s id id' cb hne h
  · rcases hg : s.fetches.get? f with _ | fs
    · rw [procRequest_start_dangling s id' cb f hl hg]
      exact startFetch_absent_other s id id' cb hne h
    · by_cases hs : fs.pd.status = Status.downloading
      · rw [procRequest_join s id' cb f fs hl hg hs]
        exact h
      · rw [procRequest_start_term s id' cb f fs hl hg hs]
        exact startFetch_absent_other s id id' cb hne h

theorem procRequest_dedup (s : SysState) (id id' : String) (cb : Bool)
    (h : dedupInv s id) : dedupInv (procRequest s id' cb) id := by
  by_cases hne : id' = id
  · subst hne
    obtain ⟨⟨f, fs, hl, hg, hm, hs⟩, hc, he⟩ := h
    rw [procRequest_join s id' cb f fs hl hg hs]
    exact ⟨⟨f, fs, hl, hg, hm, hs⟩, hc, he⟩
  · rcases hl : mlookup s.downloads id' with _ | f
    · rw [procRequest_start_none s id' cb hl]
      exact startFetch_dedup_other s id id' cb hne h
    · rcases hg : s.fetches.get? f with _ | fs
      · rw [procRequest_start_dangling s id' cb f hl hg]
        exact startFetch_dedup_other s id id' cb hne h
      · by_cases hs : fs.pd.status = Status.downloading
        · rw [procRequest_join s id' cb f fs hl hg hs]
          exact h
        · rw [procRequest_start_term s id' cb f fs hl hg hs]
          exact startFetch_dedup_other s id id' cb hne h

/-- `procPoll` only ever touches the joiner list. -/
theorem procPoll_shape (s : SysState) (j : Nat) :
    procPoll s j = s ∨ ∃ jl, procPoll s j = { s with joiners := jl } := by
  unfold procPoll
  split
  · split
    · exact Or.inl rfl
    · split
      · exact Or.inr ⟨_, rfl⟩
      · exact Or.inl rfl
  · exact Or.inl rfl

theorem procPoll_absent (s : SysState) (id : String) (j : Nat)
    (h : absentInv s id) : absentInv (procPoll s j) id := by
  rcases procPoll_shape s j with hsh | ⟨jl, hsh⟩ <;> rw [hsh] <;> exact h

theorem procPoll_dedup (s : SysState) (id : String) (j : Nat)
    (h : dedupInv s id) : dedupInv (procPoll s j) id := by
  rcases procPoll_shape s j with hsh | ⟨jl, hsh⟩ <;> rw [hsh] <;> exact h

/-- `procSample` either does nothing or rewrites the sampled fetch in place
(and possibly the log). -/
theorem procSample_shape (s : SysState) (f : Nat) (raw : RawSample) :
    procSample s f raw = s ∨
    ∃ fs, s.fetches.get? f = some fs ∧ fs.inFlight = true ∧
      ∃ lg, procSample s f raw =
        { s with
          fetches := s.fetches.set f
            { fs with pd := (trackerUpdate fs.tracker (s.now : Int) raw fs.pd).2.1
                      tracker := (trackerUpdate fs.tracker (s.now : Int) raw fs.pd).1 }
          log := lg } := by
  unfold procSample
  split
  next fs heq =>
    split
    next hin => exact Or.inr ⟨fs, heq, hin, _, rfl⟩
    next => exact Or.inl rfl
  next => exact Or.inl rfl

/-- `procComplete` either does nothing or settles the fetch in place,
appending one notification and one eviction timer for its model id. -/
theorem procComplete_shape (s : SysState) (f : Nat) (h : Nat) :
    procComplete s f h = s ∨
    ∃ fs, s.fetches.get? f = some fs ∧ fs.inFlight = true ∧
      procComplete s f h =
        { s with
          fetches := s.fetches.set f
            { fs with pd := { fs.pd with status := Status.completed, progress := 100 }
                      inFlight := false
                      outcome := some (Except.ok (some h)) }
          log := s.log ++
            [(fs.pd.modelId, { fs.pd with status := Status.completed, progress := 100 })]
          evictions := s.evictions ++ [(fs.pd.modelId, s.now + 5000)] } := by
  unfold procComplete
  split
  next fs heq =>
    split
    next hin => exact Or.inr ⟨fs, heq, hin, rfl⟩
    next => exact Or.inl rfl
  next => exact Or.inl rfl

/-- `procFail` analogue of `procComplete_shape`. -/
theorem procFail_shape (s : SysState) (f : Nat) (e : Option String) :
    procFail s f e = s ∨
    ∃ fs, s.fetches.get? f = some fs ∧ fs.inFlight = true ∧
      procFail s f e =
        { s with
          fetches := s.fetches.set f
            { fs with pd := { fs.pd with status := Status.error, error := some (errMsgOf e) }
                      inFlight := false
                      outcome := some (Except.error e) }
          log := s.log ++
            [(fs.pd.modelId, { fs.pd with status := Status.error, error := some (errMsgOf e) })]
          evictions := s.evictions ++ [(fs.pd.modelId, s.now + 5000)] } := by
  unfold procFail
  split
  next fs heq =>
    split
    next hin => exact Or.inr ⟨fs, heq, hin, rfl⟩
    next => exact Or.inl rfl
  next => exact Or.inl rfl

/-- Generic preservation: replacing fetch `f` by one with the same model id
and appending an eviction timer for a foreign id keeps `absentInv`. -/
theorem setTerm_absent (s : SysState) (id : String) (f : Nat)
    (fs newfs : FetchState) (entry : String × DownloadProgress) (ev : String × Nat)
    (hget : s.fetches.get? f = some fs) (hm : newfs.pd.modelId = fs.pd.modelId)
    (hev : ev.1 = fs.pd.modelId) (hinv : absentInv s id) :
    absentInv { s with fetches := s.fetches.set f newfs
                       log := s.log ++ [entry]
                       evictions := s.evictions ++ [ev] } id := by
  obtain ⟨hl, hc, he⟩ := hinv
  have hfm : fs.pd.modelId ≠ id := by
    have := filter_length_zero_not_mem _ _ hc fs (List.get?_mem hget)
    exact of_decide_eq_false this
  refine ⟨hl, ?_, ?_⟩
  · show ((s.fetches.set f newfs).filter
      (fun x : FetchState => decide (x.pd.modelId = id))).length = 0
    rw [filter_length_set _ s.fetches f fs newfs hget (by rw [hm])]
    exact hc
  · intro p hp
    rcases List.mem_append.mp hp with hp1 | hp2
    · exact he p hp1
    · rw [List.mem_singleton.mp hp2, hev]
      exact hfm

/-- Generic preservation for `dedupInv` when the replaced fetch belongs to a
different model id. -/
theorem setTerm_dedup (s : SysState) (id : String) (f : Nat)
    (fs newfs : FetchState) (entry : String × DownloadProgress) (ev : String × Nat)
    (hget : s.fetches.get? f = some fs) (hm : newfs.pd.modelId = fs.pd.modelId)
    (hev : ev.1 = fs.pd.modelId) (hfm : fs.pd.modelId ≠ id) (hinv : dedupInv s id) :
    dedupInv { s with fetches := s.fetches.set f newfs
                      log := s.log ++ [entry]
                      evictions := s.evictions ++ [ev] } id := by
  obtain ⟨⟨f0, fs0, hl, hg, hm0, hs0⟩, hc, he⟩ := hinv
  have hne : f ≠ f0 := by
    intro hff
    subst hff
    rw [hget] at hg
    injection hg with hg'
    exact hfm (hg' ▸ hm0)
  refine ⟨⟨f0, fs0, hl, ?_, hm0, hs0⟩, ?_, ?_⟩
  · show (s.fetches.set f newfs).get? f0 = some fs0
    rw [List.get?_set_ne _ _ hne]
    exact hg
  · show ((s.fetches.set f newfs).filter
      (fun x : FetchState => decide (x.pd.modelId = id))).length = 1
    rw [filter_length_set _ s.fetches f fs newfs hget (by rw [hm])]
    exact hc
  · intro p hp
    rcases List.mem_append.mp hp with hp1 | hp2
    · exact he p hp1
    · rw [List.mem_singleton.mp hp2, hev]
      exact hfm

theorem procSample_absent (s : SysState) (id : String) (f : Nat) (raw : RawSample)
    (hinv : absentInv s id) : absentInv (procSample s f raw) id := by
  rcases procSample_shape s f raw with hsh | ⟨fs, hget, hin, lg, hsh⟩
  · rw [hsh]; exact hinv
  · rw [hsh]
    obtain ⟨hl, hc, he⟩ := hinv
    refine ⟨hl, ?_, he⟩
    show ((s.fetches.set f _).filter
      (fun x : FetchState => decide (x.pd.modelId = id))).length = 0
    rw [filter_length_set _ s.fetches f fs _ hget
      (by rw [show ({ fs with
              pd := (trackerUpdate fs.tracker (s.now : Int) raw fs.pd).2.1,
              tracker := (trackerUpdate fs.tracker (s.now : Int) raw fs.pd).1 }
            : FetchState).pd.modelId =
          (trackerUpdate fs.tracker (s.now : Int) raw fs.pd).2.1.modelId from rfl,
        trackerUpdate_modelId])]
    exact hc

theorem procSample_dedup (s : SysState) (id : String) (f : Nat) (raw : RawSample)
    (hinv : dedupInv s id) : dedupInv (procSample s f raw) id := by
  rcases procSample_shape s f raw with hsh | ⟨fs, hget, hin, lg, hsh⟩
  · rw [hsh]; exact hinv
  · rw [hsh]
    obtain ⟨⟨f0, fs0, hl, hg, hm0, hs0⟩, hc, he⟩ := hinv
    have hmnew : ({ fs with
          pd := (trackerUpdate fs.tracker (s.now : Int) raw fs.pd).2.1,
          tracker := (trackerUpdate fs.tracker (s.now : Int) raw fs.pd).1 }
        : FetchState).pd.modelId = fs.pd.modelId := trackerUpdate_modelId _ _ _ _
    constructor
    · by_cases hff : f = f0
      · subst hff
        rw [hget] at hg
        injection hg with hg'
        subst hg'
        refine ⟨f, { fs with
            pd := (trackerUpdate fs.tracker (s.now : Int) raw fs.pd).2.1,
            tracker := (trackerUpdate fs.tracker (s.now : Int) raw fs.pd).1 },
          hl, ?_, ?_, ?_⟩
        · show (s.fetches.set f _).get? f = some _
          exact List.get?_set_eq_of_lt _ (List.get?_eq_some.mp hget).1
        · rw [hmnew]; exact hm0
        · show (trackerUpdate fs.tracker (s.now : Int) raw fs.pd).2.1.status = Status.downloading
          rw [trackerUpdate_status]; exact hs0
      · refine ⟨f0, fs0, hl, ?_, hm0, hs0⟩
        show (s.fetches.set f _).get? f0 = some fs0
        rw [List.get?_set_ne _ _ hff]
        exact hg
    · refine ⟨?_, ?_⟩
      · show ((s.fetches.set f _).filter
          (fun x : FetchState => decide (x.pd.modelId = id))).length = 1
        rw [filter_length_set _ s.fetches f fs _ hget (by rw [hmnew])]
        exact hc
      · exact he

theorem procComplete_absent (s : SysState) (id : String) (f : Nat) (h : Nat)
    (hinv : absentInv s id) : absentInv (procComplete s f h) id := by
  rcases procComplete_shape s f h with hsh | ⟨fs, hget, hin, hsh⟩
  · rw [hsh]; exact hinv
  · rw [hsh]
    exact setTerm_absent s id f fs _ _ _ hget rfl rfl hinv

theorem procComplete_dedup (s : SysState) (id : String) (f : Nat) (h : Nat)
    (hfor : ∀ fs, s.fetches.get? f = some fs → fs.pd.modelId ≠ id)
    (hinv : dedupInv s id) : dedupInv (procComplete s f h) id := by
  rcases procComplete_shape s f h with hsh | ⟨fs, hget, hin, hsh⟩
  · rw [hsh]; exact hinv
  · rw [hsh]
    exact setTerm_dedup s id f fs _ _ _ hget rfl rfl (hfor fs hget) hinv

theorem procFail_absent (s : SysState) (id : String) (f : Nat) (e : Option String)
    (hinv : absentInv s id) : absentInv (procFail s f e) id := by
  rcases procFail_shape s f e with hsh | ⟨fs, hget, hin, hsh⟩
  · rw [hsh]; exact hinv
  · rw [hsh]
    exact setTerm_absent s id f fs _ _ _ hget rfl rfl hinv

theorem procFail_dedup (s : SysState) (id : String) (f : Nat) (e : Option String)
    (hfor : ∀ fs, s.fetches.get? f = some fs → fs.pd.modelId ≠ id)
    (hinv : dedupInv s id) : dedupInv (procFail s f e) id := by
  rcases procFail_shape s f e with hsh | ⟨fs, hget, hin, hsh⟩
  · rw [hsh]; exact hinv
  · rw [hsh]
    exact setTerm_dedup s id f fs _ _ _ hget rfl rfl (hfor fs hget) hinv

theorem terminalForB_complete (s : SysState) (id : String) (f : Nat) (h : Nat)
    (hterm : terminalForB s id (Event.complete f h) = false) :
    ∀ fs, s.fetches.get? f = some fs → fs.pd.modelId ≠ id := by
  intro fs hget
  unfold terminalForB at hterm
  simp only [hget] at hterm
  exact of_decide_eq_false hterm

theorem terminalForB_fail (s : SysState) (id : String) (f : Nat) (e : Option String)
    (hterm : terminalForB s id (Event.fail f e) = false) :
    ∀ fs, s.fetches.get? f = some fs → fs.pd.modelId ≠ id := by
  intro fs hget
  unfold terminalForB at hterm
  simp only [hget] at hterm
  exact of_decide_eq_false hterm

theorem step_dedup (s : SysState) (id : String) (te : Nat × Event)
    (hterm : terminalForB s id te.2 = false) (hinv : dedupInv s id) :
    dedupInv (step s te) id := by
  obtain ⟨t, e⟩ := te
  have h1 : dedupInv (fireDue { s with now := max s.now t }) id :=
    fireDue_dedup { s with now := max s.now t } id hinv
  cases e with
  | request id' cb => exact procRequest_dedup _ id id' cb h1
  | sample f raw => exact procSample_dedup _ id f raw h1
  | complete f h =>
    exact procComplete_dedup _ id f h (terminalForB_complete s id f h hterm) h1
  | fail f e' =>
    exact procFail_dedup _ id f e' (terminalForB_fail s id f e' hterm) h1
  | poll j => exact procPoll_dedup _ id j h1

theorem step_absent (s : SysState) (id : String) (te : Nat × Event)
    (hne : ∀ cb, te.2 ≠ Event.request id cb) (hinv : absentInv s id) :
    absentInv (step s te) id := by
  obtain ⟨t, e⟩ := te
  have h1 : absentInv (fireDue { s with now := max s.now t }) id :=
    fireDue_absent { s with now := max s.now t } id hinv
  cases e with
  | request id' cb =>
    have hid : id' ≠ id := fun hh => hne cb (by rw [hh])
    exact procRequest_absent_other _ id id' cb hid h1
  | sample f raw => exact procSample_absent _ id f raw h1
  | complete f h => exact procComplete_absent _ id f h h1
  | fail f e' => exact procFail_absent _ id f e' h1
  | poll j => exact procPoll_absent _ id j h1

theorem step_absent_request (s : SysState) (id : String) (t : Nat) (cb : Bool)
    (hinv : absentInv s id) : dedupInv (step s (t, Event.request id cb)) id := by
  have h1 : absentInv (fireDue { s with now := max s.now t }) id :=
    fireDue_absent { s with now := max s.now t } id hinv
  obtain ⟨hl, hc, he⟩ := h1
  show dedupInv (procRequest (fireDue { s with now := max s.now t }) id cb) id
  rw [procRequest_start_none _ id cb hl]
  refine ⟨⟨(fireDue { s with now := max s.now t }).fetches.length,
    ⟨freshPd id, ⟨0, ((fireDue { s with now := max s.now t }).now : Int)⟩, true, none⟩,
    ?_, ?_, rfl, rfl⟩, ?_, ?_⟩
  · exact mlookup_mset_self _ _ _
  · exact List.get?_concat_length _ _
  · show (((fireDue { s with now := max s.now t }).fetches ++
        [(⟨freshPd id, ⟨0, ((fireDue { s with now := max s.now t }).now : Int)⟩, true, none⟩
          : FetchState)]).filter
        (fun fs : FetchState => decide (fs.pd.modelId = id))).length = 1
    rw [List.filter_append, List.length_append]
    have hc' : ((fireDue { s with now := max s.now t }).fetches.filter
        (fun fs : FetchState => decide (fs.pd.modelId = id))).length = 0 := hc
    rw [hc']
    simp [freshPd]
  · intro p hp
    exact he p hp

theorem dedup_trace (tr : List (Nat × Event)) : ∀ (s : SysState) (id : String),
    noTerminalForB id s tr = true →
    (dedupInv s id → dedupInv (run s tr) id) ∧
    (absentInv s id →
      (requestsFor id tr = 0 → absentInv (run s tr) id) ∧
      (requestsFor id tr ≠ 0 → dedupInv (run s tr) id)) := by
  induction tr with
  | nil =>
    intro s id _
    exact ⟨fun h => h, fun h => ⟨fun _ => h, fun hne => absurd rfl hne⟩⟩
  | cons te rest ih =>
    intro s id hterm
    rw [show noTerminalForB id s (te :: rest) =
      ((!(terminalForB s id te.2)) && noTerminalForB id (step s te) rest) from rfl,
      Bool.and_eq_true] at hterm
    obtain ⟨htf, hrest⟩ := hterm
    have htf' : terminalForB s id te.2 = false := by
      cases hv : terminalForB s id te.2
      · rfl
      · rw [hv] at htf; cases htf
    constructor
    · intro hinv
      exact (ih (step s te) id hrest).1 (step_dedup s id te htf' hinv)
    · intro hinv
      obtain ⟨t, e⟩ := te
      cases e with
      | request id' cb =>
        by_cases hid : id' = id
        · subst hid
          have hd := step_absent_request s id' t cb hinv
          have hrun := (ih (step s (t, Event.request id' cb)) id' hrest).1 hd
          refine ⟨?_, fun _ => hrun⟩
          intro h0
          have hcnt : requestsFor id' ((t, Event.request id' cb) :: rest) =
              requestsFor id' rest + 1 := by
            simp [requestsFor, List.filter_cons]
          rw [hcnt] at h0
          exact absurd h0 (Nat.succ_ne_zero _)
        · have habs := step_absent s id (t, Event.request id' cb)
            (fun cb' heq => hid (by injection heq)) hinv
          have hih := (ih (step s (t, Event.request id' cb)) id hrest).2 habs
          have hcnt : requestsFor id ((t, Event.request id' cb) :: rest) =
              requestsFor id rest := by
            simp [requestsFor, List.filter_cons, hid]
          rw [hcnt]
          exact hih
      | sample f raw =>
        have habs := step_absent s id (t, Event.sample f raw)
          (fun cb' heq => by cases heq) hinv
        have hih := (ih (step s (t, Event.sample f raw)) id hrest).2 habs
        have hcnt : requestsFor id ((t, Event.sample f raw) :: rest) =
            requestsFor id rest := by
          simp [requestsFor, List.filter_cons]
        rw [hcnt]
        exact hih
      | complete f h =>
        have habs := step_absent s id (t, Event.complete f h)
          (fun cb' heq => by cases heq) hinv
        have hih := (ih (step s (t, Event.complete f h)) id hrest).2 habs
        have hcnt : requestsFor id ((t, Event.complete f h) :: rest) =
            requestsFor id rest := by
          simp [requestsFor, List.filter_cons]
        rw [hcnt]
        exact hih
      | fail f e' =>
        have habs := step_absent s id (t, Event.fail f e')
          (fun cb' heq => by cases heq) hinv
        have hih := (ih (step s (t, Event.fail f e')) id hrest).2 habs
        have hcnt : requestsFor id ((t, Event.fail f e') :: rest) =
            requestsFor id rest := by
          simp [requestsFor, List.filter_cons]
        rw [hcnt]
        exact hih
      | poll j =>
        have habs := step_absent s id (t, Event.poll j)
          (fun cb' heq => by cases heq) hinv
        have hih := (ih (step s (t, Event.poll j)) id hrest).2 habs
        have hcnt : requestsFor id ((t, Event.poll j) :: rest) =
            requestsFor id rest := by
          simp [requestsFor, List.filter_cons]
        rw [hcnt]
        exact hih

theorem rank_le_of_terminal (st : Status) (h : st.isTerminal = true) :
    ∀ st' : Status, st'.rank ≤ st.rank := by
  intro st'
  cases st with
  | pending => cases h
  | downloading => cases h
  | completed => cases st' <;> decide
  | error => cases st' <;> decide

/-- Everything `step` can do to the fetch list: leave it, append one fresh
`downloading` fetch, rewrite one fetch in place keeping its status, or settle
one in-flight fetch to a terminal status. -/
theorem step_fetches_shape (s : SysState) (te : Nat × Event) :
    (step s te).fetches = s.fetches ∨
    (∃ id', (step s te).fetches =
      s.fetches ++ [⟨freshPd id', ⟨0, ((max s.now te.1 : Nat) : Int)⟩, true, none⟩]) ∨
    (∃ f fs newfs, s.fetches.get? f = some fs ∧
      (step s te).fetches = s.fetches.set f newfs ∧
      newfs.pd.status = fs.pd.status ∧ newfs.pd.modelId = fs.pd.modelId) ∨
    (∃ f fs newfs, s.fetches.get? f = some fs ∧ fs.inFlight = true ∧
      (step s te).fetches = s.fetches.set f newfs ∧
      newfs.pd.status.isTerminal = true ∧ newfs.pd.modelId = fs.pd.modelId) := by
  obtain ⟨t, e⟩ := te
  cases e with
  | request id' cb =>
    have hstep : step s (t, Event.request id' cb) =
        procRequest (fireDue { s with now := max s.now t }) id' cb := rfl
    rw [hstep]
    rcases hl : mlookup (fireDue { s with now := max s.now t }).downloads id' with _ | f
    · rw [procRequest_start_none _ id' cb hl]
      exact Or.inr (Or.inl ⟨id', rfl⟩)
    · rcases hg : (fireDue { s with now := max s.now t }).fetches.get? f with _ | fs
      · rw [procRequest_start_dangling _ id' cb f hl hg]
        exact Or.inr (Or.inl ⟨id', rfl⟩)
      · by_cases hs : fs.pd.status = Status.downloading
        · rw [procRequest_join _ id' cb f fs hl hg hs]
          exact Or.inl rfl
        · rw [procRequest_start_term _ id' cb f fs hl hg hs]
          exact Or.inr (Or.inl ⟨id', rfl⟩)
  | sample f raw =>
    rcases procSample_shape (fireDue { s with now := max s.now t }) f raw with
      hsh | ⟨fs, hget, hin, lg, hsh⟩
    · exact Or.inl (by
        rw [show (step s (t, Event.sample f raw)) =
          procSample (fireDue { s with now := max s.now t }) f raw from rfl, hsh]
        rfl)
    · refine Or.inr (Or.inr (Or.inl ⟨f, fs, { fs with
        pd := (trackerUpdate fs.tracker ((max s.now t : Nat) : Int) raw fs.pd).2.1,
        tracker := (trackerUpdate fs.tracker ((max s.now t : Nat) : Int) raw fs.pd).1 },
        hget, ?_, ?_, ?_⟩))
      · rw [show (step s (t, Event.sample f raw)) =
          procSample (fireDue { s with now := max s.now t }) f raw from rfl, hsh]
        rfl
      · exact trackerUpdate_status _ _ _ _
      · exact trackerUpdate_modelId _ _ _ _
  | complete f h =>
    rcases procComplete_shape (fireDue { s with now := max s.now t }) f h with
      hsh | ⟨fs, hget, hin, hsh⟩
    · exact Or.inl (by
        rw [show (step s (t, Event.complete f h)) =
          procComplete (fireDue { s with now := max s.now t }) f h from rfl, hsh]
        rfl)
    · refine Or.inr (Or.inr (Or.inr ⟨f, fs, { fs with
        pd := { fs.pd with status := Status.completed, progress := 100 },
        inFlight := false, outcome := some (Except.ok (some h)) },
        hget, hin, ?_, rfl, rfl⟩))
      rw [show (step s (t, Event.complete f h)) =
        procComplete (fireDue { s with now := max s.now t }) f h from rfl, hsh]
      rfl
  | fail f e' =>
    rcases procFail_shape (fireDue { s with now := max s.now t }) f e' with
      hsh | ⟨fs, hget, hin, hsh⟩
    · exact Or.inl (by
        rw [show (step s (t, Event.fail f e')) =
          procFail (fireDue { s with now := max s.now t }) f e' from rfl, hsh]
        rfl)
    · refine Or.inr (Or.inr (Or.inr ⟨f, fs, { fs with
        pd := { fs.pd with status := Status.error, error := some (errMsgOf e') },
        inFlight := false, outcome := some (Except.error e') },
        hget, hin, ?_, rfl, rfl⟩))
      rw [show (step s (t, Event.fail f e')) =
        procFail (fireDue { s with now := max s.now t }) f e' from rfl, hsh]
      rfl
  | poll j =>
    rcases procPoll_shape (fireDue { s with now := max s.now t }) j with hsh | ⟨jl, hsh⟩
    · exact Or.inl (by
        rw [show (step s (t, Event.poll j)) =
          procPoll (fireDue { s with now := max s.now t }) j from rfl, hsh]
        rfl)
    · exact Or.inl (by
        rw [show (step s (t, Event.poll j)) =
          procPoll (fireDue { s with now := max s.now t }) j from rfl, hsh]
        rfl)

/-! ### Claims -/

/-- Claim C1: deduplication.  For any identity and any event trace from the
initial state in which no fetch for that identity reaches a terminal status,
if at least one requestDownload call for the identity occurs (so N ≥ 2
concurrent calls all happen before the first terminal transition), exactly
one pipeline invocation ever occurs for that identity: the first request
starts the fetch and every later request joins the same in-flight state,
under any interleaving of events. -/
theorem c1_dedup (id : String) (tr : List (Nat × Event))
    (hterm : noTerminalForB id SysState.init tr = true)
    (hreq : requestsFor id tr ≠ 0) :
    fetchCount (run SysState.init tr) id = 1 := by
  have habs : absentInv SysState.init id := ⟨rfl, rfl, fun p hp => by cases hp⟩
  exact (((dedup_trace tr SysState.init id hterm).2 habs).2 hreq).2.1

/-- Witness for C1: three concurrent requests for the same identity, the two
later ones issued while the first is downloading, produce exactly one fetch. -/
theorem c1_dedup_witness :
    noTerminalForB "m1" SysState.init
      [(0, Event.request "m1" true), (0, Event.request "m1" false),
       (3, Event.request "m1" false)] = true ∧
    requestsFor "m1"
      [(0, Event.request "m1" true), (0, Event.request "m1" false),
       (3, Event.request "m1" false)] ≠ 0 ∧
    fetchCount (run SysState.init
      [(0, Event.request "m1" true), (0, Event.request "m1" false),
       (3, Event.request "m1" false)]) "m1" = 1 :=
  ⟨by decide, by decide,
    c1_dedup "m1"
      [(0, Event.request "m1" true), (0, Event.request "m1" false),
       (3, Event.request "m1" false)] (by decide) (by decide)⟩

/-- Counterexample to C4 as stated: the claim says every DownloadState is
created in status pending, but the very first request creates the state
directly in status downloading (lines 146-156 build progressData with
status: downloading, and no code path ever assigns pending). -/
theorem c4_counterexample :
    (getProgress (run SysState.init [(0, Event.request "m1" false)]) "m1").map
      (fun pd => pd.status) = some Status.downloading ∧
    Status.downloading ≠ Status.pending :=
  ⟨by decide, by decide⟩

/-- Claim C4 (amended): every DownloadState is created in status downloading
(never pending), and within one fetch lifetime the status only moves forward
downloading → completed/error: any step maps each existing fetch to one of
equal-or-higher rank, never leaves a terminal status, and any newly appearing
fetch starts at downloading. -/
theorem c4_forward (s : SysState) (te : Nat × Event)
    (hwf : ∀ fs ∈ s.fetches, fs.inFlight = true → fs.pd.status = Status.downloading) :
    (∀ f fs, s.fetches.get? f = some fs →
      ∃ fs', (step s te).fetches.get? f = some fs' ∧
        fs.pd.status.rank ≤ fs'.pd.status.rank ∧
        (fs.pd.status.isTerminal = true → fs'.pd.status = fs.pd.status)) ∧
    (∀ f fs', s.fetches.get? f = none → (step s te).fetches.get? f = some fs' →
      fs'.pd.status = Status.downloading) := by
  constructor
  · intro f fs hget
    rcases step_fetches_shape s te with hA | ⟨id', hB⟩ |
      ⟨f0, fs0, newfs, hg0, hC, hst, hmid⟩ | ⟨f0, fs0, newfs, hg0, hin0, hD, htm, hmid⟩
    · exact ⟨fs, by rw [hA]; exact hget, le_refl _, fun _ => rfl⟩
    · refine ⟨fs, ?_, le_refl _, fun _ => rfl⟩
      rw [hB, List.get?_append (List.get?_eq_some.mp hget).1]
      exact hget
    · by_cases hff : f = f0
      · subst hff
        rw [hget] at hg0
        injection hg0 with hfs0
        subst hfs0
        refine ⟨newfs, ?_, ?_, ?_⟩
        · rw [hC]
          exact List.get?_set_eq_of_lt _ (List.get?_eq_some.mp hget).1
        · exact le_of_eq (by rw [hst])
        · intro _
          exact hst
      · refine ⟨fs, ?_, le_refl _, fun _ => rfl⟩
        rw [hC, List.get?_set_ne _ _ (fun hh => hff hh.symm)]
        exact hget
    · by_cases hff : f = f0
      · subst hff
        rw [hget] at hg0
        injection hg0 with hfs0
        subst hfs0
        have hdl : fs.pd.status = Status.downloading := hwf fs (List.get?_mem hget) hin0
        refine ⟨newfs, ?_, ?_, ?_⟩
        · rw [hD]
          exact List.get?_set_eq_of_lt _ (List.get?_eq_some.mp hget).1
        · exact rank_le_of_terminal _ htm _
        · intro hterm0
          rw [hdl] at hterm0
          cases hterm0
      · refine ⟨fs, ?_, le_refl _, fun _ => rfl⟩
        rw [hD, List.get?_set_ne _ _ (fun hh => hff hh.symm)]
        exact hget
  · intro f fs' hnone hsome
    rcases step_fetches_shape s te with hA | ⟨id', hB⟩ |
      ⟨f0, fs0, newfs, hg0, hC, hst, hmid⟩ | ⟨f0, fs0, newfs, hg0, hin0, hD, htm, hmid⟩
    · rw [hA, hnone] at hsome
      cases hsome
    · rw [hB] at hsome
      have hlen : s.fetches.length ≤ f := List.get?_eq_none.mp hnone
      have hlt : f < s.fetches.length + 1 := by
        have hb := (List.get?_eq_some.mp hsome).1
        simpa [List.length_append] using hb
      have hfe : f = s.fetches.length := le_antisymm (Nat.lt_succ_iff.mp hlt) hlen
      subst hfe
      rw [List.get?_concat_length] at hsome
      injection hsome with hfs
      rw [← hfs]
      rfl
    · rw [hC] at hsome
      have hn2 : (s.fetches.set f0 newfs).get? f = none :=
        List.get?_len_le (by rw [List.length_set]; exact List.get?_eq_none.mp hnone)
      rw [hn2] at hsome
      cases hsome
    · rw [hD] at hsome
      have hn2 : (s.fetches.set f0 newfs).get? f = none :=
        List.get?_len_le (by rw [List.length_set]; exact List.get?_eq_none.mp hnone)
      rw [hn2] at hsome
      cases hsome

/-- Witness for C4 (amended) at a concrete reachable state: one in-flight
fetch being completed. -/
theorem c4_forward_witness :
    (∀ fs ∈ (run SysState.init [(0, Event.request "m1" false)]).fetches,
      fs.inFlight = true → fs.pd.status = Status.downloading) ∧
    ((∀ f fs, (run SysState.init [(0, Event.request "m1" false)]).fetches.get? f = some fs →
      ∃ fs', (step (run SysState.init [(0, Event.request "m1" false)])
          (1, Event.complete 0 5)).fetches.get? f = some fs' ∧
        fs.pd.status.rank ≤ fs'.pd.status.rank ∧
        (fs.pd.status.isTerminal = true → fs'.pd.status = fs.pd.status)) ∧
    (∀ f fs', (run SysState.init [(0, Event.request "m1" false)]).fetches.get? f = none →
      (step (run SysState.init [(0, Event.request "m1" false)])
          (1, Event.complete 0 5)).fetches.get? f = some fs' →
      fs'.pd.status = Status.downloading)) :=
  ⟨by decide,
    c4_forward (run SysState.init [(0, Event.request "m1" false)])
      (1, Event.complete 0 5) (by decide)⟩

/-! ### Evaluation equations and field-preservation helpers -/

theorem procComplete_eq (s : SysState) (f : Nat) (h : Nat) (fs : FetchState)
    (hget : s.fetches.get? f = some fs) (hin : fs.inFlight = true) :
    procComplete s f h =
      { s with
        fetches := s.fetches.set f
          { fs with pd := { fs.pd with status := Status.completed, progress := 100 }
                    inFlight := false
                    outcome := some (Except.ok (some h)) }
        log := s.log ++
          [(fs.pd.modelId, { fs.pd with status := Status.completed, progress := 100 })]
        evictions := s.evictions ++ [(fs.pd.modelId, s.now + 5000)] } := by
  unfold procComplete
  simp only [hget]
  rw [if_pos hin]

theorem procFail_eq (s : SysState) (f : Nat) (e : Option String) (fs : FetchState)
    (hget : s.fetches.get? f = some fs) (hin : fs.inFlight = true) :
    procFail s f e =
      { s with
        fetches := s.fetches.set f
          { fs with pd := { fs.pd with status := Status.error, error := some (errMsgOf e) }
                    inFlight := false
                    outcome := some (Except.error e) }
        log := s.log ++
          [(fs.pd.modelId, { fs.pd with status := Status.error, error := some (errMsgOf e) })]
        evictions := s.evictions ++ [(fs.pd.modelId, s.now + 5000)] } := by
  unfold procFail
  simp only [hget]
  rw [if_pos hin]

theorem procSample_downloads (s : SysState) (f : Nat) (raw : RawSample) :
    (procSample s f raw).downloads = s.downloads := by
  rcases procSample_shape s f raw with hsh | ⟨fs, _, _, lg, hsh⟩ <;> rw [hsh]

theorem procSample_subscribers (s : SysState) (f : Nat) (raw : RawSample) :
    (procSample s f raw).subscribers = s.subscribers := by
  rcases procSample_shape s f raw with hsh | ⟨fs, _, _, lg, hsh⟩ <;> rw [hsh]

theorem procComplete_downloads (s : SysState) (f : Nat) (h : Nat) :
    (procComplete s f h).downloads = s.downloads := by
  rcases procComplete_shape s f h with hsh | ⟨fs, _, _, hsh⟩ <;> rw [hsh]

theorem procComplete_subscribers (s : SysState) (f : Nat) (h : Nat) :
    (procComplete s f h).subscribers = s.subscribers := by
  rcases procComplete_shape s f h with hsh | ⟨fs, _, _, hsh⟩ <;> rw [hsh]

theorem procFail_downloads (s : SysState) (f : Nat) (e : Option String) :
    (procFail s f e).downloads = s.downloads := by
  rcases procFail_shape s f e with hsh | ⟨fs, _, _, hsh⟩ <;> rw [hsh]

theorem procFail_subscribers (s : SysState) (f : Nat) (e : Option String) :
    (procFail s f e).subscribers = s.subscribers := by
  rcases procFail_shape s f e with hsh | ⟨fs, _, _, hsh⟩ <;> rw [hsh]

theorem procPoll_downloads (s : SysState) (j : Nat) :
    (procPoll s j).downloads = s.downloads := by
  rcases procPoll_shape s j with hsh | ⟨jl, hsh⟩ <;> rw [hsh]

theorem procPoll_subscribers (s : SysState) (j : Nat) :
    (procPoll s j).subscribers = s.subscribers := by
  rcases procPoll_shape s j with hsh | ⟨jl, hsh⟩ <;> rw [hsh]

theorem mlookup_addSub_ne (subs : List (String × List Nat)) (id id' : String)
    (h : id ≠ id') : mlookup (addSub subs id') id = mlookup subs id := by
  unfold addSub
  exact mlookup_mset_ne _ _ _ _ h

theorem procRequest_downloads_ne (s : SysState) (id id' : String) (cb : Bool)
    (h : id ≠ id') :
    mlookup (procRequest s id' cb).downloads id = mlookup s.downloads id := by
  rcases hl : mlookup s.downloads id' with _ | f
  · rw [procRequest_start_none s id' cb hl]
    exact mlookup_mset_ne _ _ _ _ h
  · rcases hg : s.fetches.get? f with _ | fs
    · rw [procRequest_start_dangling s id' cb f hl hg]
      exact mlookup_mset_ne _ _ _ _ h
    · by_cases hs : fs.pd.status = Status.downloading
      · rw [procRequest_join s id' cb f fs hl hg hs]
      · rw [procRequest_start_term s id' cb f fs hl hg hs]
        exact mlookup_mset_ne _ _ _ _ h

theorem procRequest_subscribers_ne (s : SysState) (id id' : String) (cb : Bool)
    (h : id ≠ id') :
    mlookup (procRequest s id' cb).subscribers id = mlookup s.subscribers id := by
  have hsub : ∀ u : SysState, mlookup (if cb then addSub u.subscribers id'
      else u.subscribers) id = mlookup u.subscribers id := by
    intro u
    by_cases hcb : cb
    · rw [if_pos hcb]
      exact mlookup_addSub_ne _ _ _ h
    · rw [if_neg hcb]
  rcases hl : mlookup s.downloads id' with _ | f
  · rw [procRequest_start_none s id' cb hl]
    exact hsub s
  · rcases hg : s.fetches.get? f with _ | fs
    · rw [procRequest_start_dangling s id' cb f hl hg]
      exact hsub s
    · by_cases hs : fs.pd.status = Status.downloading
      · rw [procRequest_join s id' cb f fs hl hg hs]
        exact hsub s
      · rw [procRequest_start_term s id' cb f fs hl hg hs]
        exact hsub s

theorem fetchCount_startFetch_self (s : SysState) (id : String) (cb : Bool) :
    fetchCount (startFetch s id cb) id = fetchCount s id + 1 := by
  show ((s.fetches ++ [(⟨freshPd id, ⟨0, (s.now : Int)⟩, true, none⟩ : FetchState)]).filter
      (fun fs : FetchState => decide (fs.pd.modelId = id))).length = fetchCount s id + 1
  rw [List.filter_append, List.length_append]
  have ho : (([(⟨freshPd id, ⟨0, (s.now : Int)⟩, true, none⟩ : FetchState)]).filter
      (fun fs : FetchState => decide (fs.pd.modelId = id))).length = 1 := by
    simp [freshPd]
  rw [ho]
  rfl

theorem getProgress_startFetch (s : SysState) (id : String) (cb : Bool) :
    getProgress (startFetch s id cb) id = some (freshPd id) := by
  unfold getProgress
  rw [show (startFetch s id cb).downloads = mset s.downloads id s.fetches.length from rfl,
    mlookup_mset_self]
  show ((startFetch s id cb).fetches.get? s.fetches.length).map (fun fs => fs.pd) =
    some (freshPd id)
  rw [show (startFetch s id cb).fetches =
    s.fetches ++ [(⟨freshPd id, ⟨0, (s.now : Int)⟩, true, none⟩ : FetchState)] from rfl,
    List.get?_concat_length]
  rfl

theorem fireDue_getProgress_none (s : SysState) (id : String)
    (h : getProgress s id = none) : getProgress (fireDue s) id = none := by
  unfold getProgress at h ⊢
  rcases mlookup_foldl_mdel_or
      ((s.evictions.filter (fun p => decide (p.2 ≤ s.now))).map (fun p => p.1))
      s.downloads id with hnone | hsame
  · rw [show (fireDue s).downloads =
      ((s.evictions.filter (fun p => decide (p.2 ≤ s.now))).map (fun p => p.1)).foldl
        mdel s.downloads from rfl, hnone]
    rfl
  · rw [show (fireDue s).downloads =
      ((s.evictions.filter (fun p => decide (p.2 ≤ s.now))).map (fun p => p.1)).foldl
        mdel s.downloads from rfl, hsame]
    exact h

theorem fireDue_downloads_notdue (s : SysState) (id : String)
    (h : ∀ p ∈ s.evictions, p.1 = id → ¬ p.2 ≤ s.now) :
    mlookup (fireDue s).downloads id = mlookup s.downloads id := by
  have hne : ∀ d ∈ (s.evictions.filter (fun p => decide (p.2 ≤ s.now))).map
      (fun p => p.1), d ≠ id := by
    intro d hd hdid
    obtain ⟨p, hp, hpd⟩ := List.mem_map.mp hd
    obtain ⟨hpe, hple⟩ := List.mem_filter.mp hp
    exact h p hpe (by rw [hpd, hdid]) (of_decide_eq_true hple)
  rw [show (fireDue s).downloads =
    ((s.evictions.filter (fun p => decide (p.2 ≤ s.now))).map (fun p => p.1)).foldl
      mdel s.downloads from rfl]
  exact mlookup_foldl_mdel_of_ne _ _ _ hne

theorem fireDue_getProgress_notdue (s : SysState) (id : String)
    (h : ∀ p ∈ s.evictions, p.1 = id → ¬ p.2 ≤ s.now) :
    getProgress (fireDue s) id = getProgress s id := by
  unfold getProgress
  rw [fireDue_downloads_notdue s id h]
  rfl

theorem procSample_joiners (s : SysState) (f : Nat) (raw : RawSample) :
    (procSample s f raw).joiners = s.joiners := by
  rcases procSample_shape s f raw with hsh | ⟨fs, _, _, lg, hsh⟩ <;> rw [hsh]

theorem procComplete_joiners (s : SysState) (f : Nat) (h : Nat) :
    (procComplete s f h).joiners = s.joiners := by
  rcases procComplete_shape s f h with hsh | ⟨fs, _, _, hsh⟩ <;> rw [hsh]

theorem procFail_joiners (s : SysState) (f : Nat) (e : Option String) :
    (procFail s f e).joiners = s.joiners := by
  rcases procFail_shape s f e with hsh | ⟨fs, _, _, hsh⟩ <;> rw [hsh]

/-- `procPoll` either leaves the joiner list alone or settles one previously
unsettled joiner. -/
theorem procPoll_joiners (s : SysState) (j' : Nat) :
    (procPoll s j').joiners = s.joiners ∨
    ∃ js0 o0, s.joiners.get? j' = some js0 ∧ js0.outcome = none ∧
      (procPoll s j').joiners = s.joiners.set j' { js0 with outcome := some o0 } := by
  unfold procPoll
  split
  next js0 heq =>
    split
    next o0 hout => exact Or.inl rfl
    next hout =>
      split
      next o0 hpo => exact Or.inr ⟨js0, o0, heq, hout, rfl⟩
      next hpo => exact Or.inl rfl
  next heq => exact Or.inl rfl

/-- A settled joiner's outcome never changes: each caller's promise settles
at most once. -/
theorem settled_stable (s : SysState) (te : Nat × Event) (j : Nat)
    (js : JoinerState) (o : Except String (Option Nat))
    (hj : s.joiners.get? j = some js) (ho : js.outcome = some o) :
    ∃ js', (step s te).joiners.get? j = some js' ∧ js'.outcome = some o := by
  obtain ⟨t, e⟩ := te
  have hj1 : (fireDue { s with now := max s.now t }).joiners.get? j = some js := hj
  cases e with
  | request id' cb =>
    have hstep : step s (t, Event.request id' cb) =
        procRequest (fireDue { s with now := max s.now t }) id' cb := rfl
    rw [hstep]
    rcases hl : mlookup (fireDue { s with now := max s.now t }).downloads id' with _ | f
    · rw [procRequest_start_none _ id' cb hl]
      exact ⟨js, hj1, ho⟩
    · rcases hg : (fireDue { s with now := max s.now t }).fetches.get? f with _ | fs
      · rw [procRequest_start_dangling _ id' cb f hl hg]
        exact ⟨js, hj1, ho⟩
      · by_cases hs : fs.pd.status = Status.downloading
        · rw [procRequest_join _ id' cb f fs hl hg hs]
          refine ⟨js, ?_, ho⟩
          show ((fireDue { s with now := max s.now t }).joiners ++
            [(⟨id', none⟩ : JoinerState)]).get? j = some js
          rw [List.get?_append (List.get?_eq_some.mp hj1).1]
          exact hj1
        · rw [procRequest_start_term _ id' cb f fs hl hg hs]
          exact ⟨js, hj1, ho⟩
  | sample f raw =>
    refine ⟨js, ?_, ho⟩
    show (procSample (fireDue { s with now := max s.now t }) f raw).joiners.get? j = some js
    rw [procSample_joiners]
    exact hj1
  | complete f h =>
    refine ⟨js, ?_, ho⟩
    show (procComplete (fireDue { s with now := max s.now t }) f h).joiners.get? j = some js
    rw [procComplete_joiners]
    exact hj1
  | fail f e' =>
    refine ⟨js, ?_, ho⟩
    show (procFail (fireDue { s with now := max s.now t }) f e').joiners.get? j = some js
    rw [procFail_joiners]
    exact hj1
  | poll j' =>
    rcases procPoll_joiners (fireDue { s with now := max s.now t }) j' with
      hsh | ⟨js0, o0, hj0, hout0, hsh⟩
    · refine ⟨js, ?_, ho⟩
      show (procPoll (fireDue { s with now := max s.now t }) j').joiners.get? j = some js
      rw [hsh]
      exact hj1
    · have hne : j' ≠ j := by
        intro hh
        subst hh
        rw [hj1] at hj0
        injection hj0 with hh2
        rw [hh2, hout0] at ho
        cases ho
      refine ⟨js, ?_, ho⟩
      show (procPoll (fireDue { s with now := max s.now t }) j').joiners.get? j = some js
      rw [hsh, List.get?_set_ne _ _ hne]
      exact hj1

/-- One `checkStatus` tick that observes a determined outcome settles the
joiner with it. -/
theorem procPoll_settles (s : SysState) (j : Nat) (js : JoinerState)
    (hj : s.joiners.get? j = some js) (hout : js.outcome = none)
    (o : Except String (Option Nat)) (hpo : pollOutcome s js.modelId = some o) :
    (procPoll s j).joiners.get? j = some ⟨js.modelId, some o⟩ := by
  unfold procPoll
  simp only [hj, hout, hpo]
  rw [List.get?_set_eq_of_lt _ (List.get?_eq_some.mp hj).1]

theorem pollOutcome_absent (s : SysState) (id : String)
    (h : getProgress s id = none) :
    pollOutcome s id = some (Except.error "Download cancelled") := by
  unfold pollOutcome
  simp only [h]

theorem pollOutcome_completed (s : SysState) (id : String) (pd : DownloadProgress)
    (h : getProgress s id = some pd) (hst : pd.status = Status.completed) :
    pollOutcome s id = some (Except.ok none) := by
  unfold pollOutcome
  simp only [h, hst]

theorem pollOutcome_error_case (s : SysState) (id : String) (pd : DownloadProgress)
    (h : getProgress s id = some pd) (hst : pd.status = Status.error) :
    pollOutcome s id = some (Except.error (jsOrDefault pd.error "Download failed")) := by
  unfold pollOutcome
  simp only [h, hst]

theorem step_poll_settles (s : SysState) (t j : Nat) (js : JoinerState)
    (hj : s.joiners.get? j = some js) (hout : js.outcome = none)
    (o : Except String (Option Nat))
    (hpo : pollOutcome (fireDue { s with now := max s.now t }) js.modelId = some o) :
    (step s (t, Event.poll j)).joiners.get? j = some ⟨js.modelId, some o⟩ :=
  procPoll_settles (fireDue { s with now := max s.now t }) j js hj hout o hpo

theorem trackerUpdate_loaded (ts : TrackerState) (now : Int) (s : RawSample)
    (pd : DownloadProgress) (hp : s.isProgressStatus = true) (hf : s.hasFile = true) :
    ((trackerUpdate ts now s pd).2.1).loaded = s.loaded := by
  unfold trackerUpdate
  simp [hp, hf]

theorem trackerUpdate_progress (ts : TrackerState) (now : Int) (s : RawSample)
    (pd : DownloadProgress) (hp : s.isProgressStatus = true) (hf : s.hasFile = true) :
    ((trackerUpdate ts now s pd).2.1).progress =
      ((s.loaded : ℚ) / (s.total : ℚ)) * 100 := by
  unfold trackerUpdate
  simp [hp, hf]

/-- Counterexample to C5 as stated: the tracker records each raw sample's
loaded count verbatim (line 176), so a sample stream whose loaded values
decrease — as happens between files of a multi-file model download — makes
the recorded bytesLoaded and percentage decrease, even with bytesTotal
positive throughout. -/
theorem c5_counterexample :
    ¬ ((runTracker ⟨0, 0⟩ (freshPd "m1")
          [(1000, ⟨true, true, 100, 1000⟩)]).2.loaded ≤
        (runTracker ⟨0, 0⟩ (freshPd "m1")
          [(1000, ⟨true, true, 100, 1000⟩), (2000, ⟨true, true, 50, 1000⟩)]).2.loaded) ∧
    0 < (runTracker ⟨0, 0⟩ (freshPd "m1")
          [(1000, ⟨true, true, 100, 1000⟩)]).2.total ∧
    ¬ ((runTracker ⟨0, 0⟩ (freshPd "m1")
          [(1000, ⟨true, true, 100, 1000⟩)]).2.progress ≤
        (runTracker ⟨0, 0⟩ (freshPd "m1")
          [(1000, ⟨true, true, 100, 1000⟩), (2000, ⟨true, true, 50, 1000⟩)]).2.progress) := by
  refine ⟨by decide, by decide, ?_⟩
  rw [not_le]
  show (runTracker ⟨0, 0⟩ (freshPd "m1")
      [(1000, ⟨true, true, 100, 1000⟩), (2000, ⟨true, true, 50, 1000⟩)]).2.progress <
    (runTracker ⟨0, 0⟩ (freshPd "m1") [(1000, ⟨true, true, 100, 1000⟩)]).2.progress
  simp [runTracker, trackerUpdate, freshPd]
  norm_num

/-- Claim C5 (amended): the tracker records each processed sample's loaded
count verbatim, so across two consecutive processed samples the recorded
bytesLoaded is non-decreasing exactly when the incoming loaded values are;
under a non-decreasing loaded stream with a fixed positive total, the
recorded percentage is also non-decreasing. -/
theorem c5_monotonic (ts : TrackerState) (pd : DownloadProgress) (t1 t2 : Int)
    (s1 s2 : RawSample)
    (h1p : s1.isProgressStatus = true) (h1f : s1.hasFile = true)
    (h2p : s2.isProgressStatus = true) (h2f : s2.hasFile = true)
    (hmono : s1.loaded ≤ s2.loaded) (htot : s1.total = s2.total)
    (hpos : 0 < s2.total) :
    (runTracker ts pd [(t1, s1)]).2.loaded ≤
      (runTracker ts pd [(t1, s1), (t2, s2)]).2.loaded ∧
    (runTracker ts pd [(t1, s1)]).2.progress ≤
      (runTracker ts pd [(t1, s1), (t2, s2)]).2.progress := by
  have e1 : (runTracker ts pd [(t1, s1)]).2 = (trackerUpdate ts t1 s1 pd).2.1 := rfl
  have e2 : (runTracker ts pd [(t1, s1), (t2, s2)]).2 =
      (trackerUpdate (trackerUpdate ts t1 s1 pd).1 t2 s2
        (trackerUpdate ts t1 s1 pd).2.1).2.1 := rfl
  rw [e1, e2, trackerUpdate_loaded _ _ _ _ h1p h1f, trackerUpdate_loaded _ _ _ _ h2p h2f,
    trackerUpdate_progress _ _ _ _ h1p h1f, trackerUpdate_progress _ _ _ _ h2p h2f, htot]
  refine ⟨hmono, ?_⟩
  have hposQ : (0 : ℚ) < (s2.total : ℚ) := by exact_mod_cast hpos
  have hleQ : (s1.loaded : ℚ) ≤ (s2.loaded : ℚ) := by exact_mod_cast hmono
  have hdiv : (s1.loaded : ℚ) / (s2.total : ℚ) ≤ (s2.loaded : ℚ) / (s2.total : ℚ) :=
    (div_le_div_right hposQ).mpr hleQ
  exact mul_le_mul_of_nonneg_right hdiv (by norm_num)

/-- Witness for C5 (amended) at the spec's own scenario samples
(500,1000) then (1000,1000). -/
theorem c5_monotonic_witness :
    ((⟨true, true, 500, 1000⟩ : RawSample).isProgressStatus = true ∧
     (⟨true, true, 500, 1000⟩ : RawSample).loaded ≤
       (⟨true, true, 1000, 1000⟩ : RawSample).loaded ∧
     (0 : Int) < (⟨true, true, 1000, 1000⟩ : RawSample).total) ∧
    ((runTracker ⟨0, 0⟩ (freshPd "m1") [(1000, ⟨true, true, 500, 1000⟩)]).2.loaded ≤
      (runTracker ⟨0, 0⟩ (freshPd "m1")
        [(1000, ⟨true, true, 500, 1000⟩), (2000, ⟨true, true, 1000, 1000⟩)]).2.loaded ∧
     (runTracker ⟨0, 0⟩ (freshPd "m1") [(1000, ⟨true, true, 500, 1000⟩)]).2.progress ≤
      (runTracker ⟨0, 0⟩ (freshPd "m1")
        [(1000, ⟨true, true, 500, 1000⟩), (2000, ⟨true, true, 1000, 1000⟩)]).2.progress) :=
  ⟨⟨rfl, by decide, by decide⟩,
    c5_monotonic ⟨0, 0⟩ (freshPd "m1") 1000 2000 ⟨true, true, 500, 1000⟩
      ⟨true, true, 1000, 1000⟩ rfl rfl rfl rfl (by decide) rfl (by decide)⟩

/-- Counterexample to C9 as stated: a processed sample whose loaded count is
below the previous one (multi-file downloads interleave per-file counters)
yields a negative derived speed — `loadedDelta / timeDelta` at line 171 has
no lower bound. -/
theorem c9_counterexample :
    (trackerUpdate ⟨100, 0⟩ 1000 ⟨true, true, 50, 1000⟩ (freshPd "m")).2.1.speed < 0 := by
  simp [trackerUpdate, freshPd]
  norm_num

/-- Claim C9 (amended): for every processed sample whose loaded count is at
least the tracker's previous one, the derived speed is non-negative, and
equal timestamps give speed exactly 0 (the `timeDelta > 0` guard at line 171
prevents division by zero). -/
theorem c9_speed_nonneg (ts : TrackerState) (now : Int) (s : RawSample)
    (pd : DownloadProgress) (hp : s.isProgressStatus = true) (hf : s.hasFile = true)
    (hmono : ts.lastLoaded ≤ s.loaded) :
    0 ≤ (trackerUpdate ts now s pd).2.1.speed ∧
    (now = ts.lastTime → (trackerUpdate ts now s pd).2.1.speed = 0) := by
  have hsp : (trackerUpdate ts now s pd).2.1.speed =
      (if 0 < ((now : ℚ) - (ts.lastTime : ℚ)) / 1000
       then ((s.loaded : ℚ) - (ts.lastLoaded : ℚ)) / (((now : ℚ) - (ts.lastTime : ℚ)) / 1000)
       else 0) := by
    unfold trackerUpdate
    simp [hp, hf]
  constructor
  · rw [hsp]
    split
    next hposd =>
      refine div_nonneg ?_ (le_of_lt hposd)
      rw [sub_nonneg]
      exact_mod_cast hmono
    next => exact le_refl 0
  · intro heq
    rw [hsp, heq]
    simp

/-- Witness for C9 (amended): equal timestamps give speed 0, and a
non-decreasing sample keeps speed non-negative. -/
theorem c9_speed_nonneg_witness :
    ((⟨true, true, 500, 1000⟩ : RawSample).isProgressStatus = true ∧
     (⟨0, 700⟩ : TrackerState).lastLoaded ≤ (⟨true, true, 500, 1000⟩ : RawSample).loaded) ∧
    (0 ≤ (trackerUpdate ⟨0, 700⟩ 700 ⟨true, true, 500, 1000⟩ (freshPd "m")).2.1.speed ∧
     ((700 : Int) = (⟨0, 700⟩ : TrackerState).lastTime →
       (trackerUpdate ⟨0, 700⟩ 700 ⟨true, true, 500, 1000⟩ (freshPd "m")).2.1.speed = 0)) :=
  ⟨⟨rfl, by decide⟩,
    c9_speed_nonneg ⟨0, 700⟩ 700 ⟨true, true, 500, 1000⟩ (freshPd "m") rfl rfl (by decide)⟩

/-- Counterexample to C6 as stated: `notifyProgress` runs the callbacks with
a bare `forEach` (lines 217-218) and no try/catch, so a throwing first
callback prevents the second from running, and a throw during the success
notification is caught by `downloadModel`'s catch block, flipping the
just-completed state to error. -/
theorem c6_counterexample :
    (runCbs [fun _ => some "boom", fun _ => none] (freshPd "m1")).1 = [0] ∧
    ¬ (1 ∈ (runCbs [fun _ => some "boom", fun _ => none] (freshPd "m1")).1) ∧
    (completeModel [fun _ => some "boom", fun _ => none] (freshPd "m1") 7).pd.status =
      Status.error ∧
    Status.error ≠ Status.completed :=
  ⟨by decide, by decide, rfl, by decide⟩

/-- Claim C6 (amended): a callback that throws stops `notifyProgress` before
any later callback runs and the exception escapes; when this happens during
the success notification the coordinator catches it, marks the state error
with the exception's message, and the original caller's promise rejects —
but the finally block still schedules eviction. -/
theorem c6_fault (a : CallbackFn) (rest : List CallbackFn) (pd : DownloadProgress)
    (h : Nat) (m : String) (hthrow : ∀ q, a q = some m) :
    runCbs (a :: rest) pd = ([0], some m) ∧
    (completeModel (a :: rest) pd h).ran = [0] ++ [0] ∧
    (completeModel (a :: rest) pd h).pd.status = Status.error ∧
    (completeModel (a :: rest) pd h).pd.error = some m ∧
    (completeModel (a :: rest) pd h).outcome = Except.error (some m) ∧
    (completeModel (a :: rest) pd h).evictionScheduled = true := by
  have hrun : ∀ q, runCbs (a :: rest) q = ([0], some m) := by
    intro q
    unfold runCbs runCbsFrom
    rw [hthrow q]
  refine ⟨hrun pd, ?_, ?_, ?_, ?_, ?_⟩ <;>
    simp [completeModel, hrun]

/-- Witness for C6 (amended): one always-throwing callback followed by a
benign one. -/
theorem c6_fault_witness :
    (∀ q, (fun _ => some "boom" : CallbackFn) q = some "boom") ∧
    (runCbs [fun _ => some "boom", fun _ => none] (freshPd "m1") = ([0], some "boom") ∧
     (completeModel [fun _ => some "boom", fun _ => none] (freshPd "m1") 7).ran =
       [0] ++ [0] ∧
     (completeModel [fun _ => some "boom", fun _ => none] (freshPd "m1") 7).pd.status =
       Status.error ∧
     (completeModel [fun _ => some "boom", fun _ => none] (freshPd "m1") 7).pd.error =
       some "boom" ∧
     (completeModel [fun _ => some "boom", fun _ => none] (freshPd "m1") 7).outcome =
       Except.error (some "boom") ∧
     (completeModel [fun _ => some "boom", fun _ => none] (freshPd "m1") 7).evictionScheduled =
       true) :=
  ⟨fun _ => rfl,
    c6_fault (fun _ => some "boom") [fun _ => none] (freshPd "m1") 7 "boom" (fun _ => rfl)⟩

theorem isTerminal_ne_downloading (st : Status) (h : st.isTerminal = true) :
    st ≠ Status.downloading := by
  intro hh
  rw [hh] at h
  cases h

/-- Counterexample to C3 as stated: a request arriving while the state is
terminal (inside the grace window) does not join the wait path — the guard
at line 138 only joins status downloading, so control falls through and a
second fetch is started for the same identity. -/
theorem c3_counterexample :
    (getProgress (run SysState.init
        [(0, Event.request "m1" false), (1, Event.complete 0 5)]) "m1").map
      (fun pd => pd.status) = some Status.completed ∧
    fetchCount (run SysState.init
      [(0, Event.request "m1" false), (1, Event.complete 0 5),
       (2, Event.request "m1" false)]) "m1" = 2 :=
  ⟨by decide, by decide⟩

/-- Claim C3 (amended): if requestDownload is called for an identity whose
state exists and is terminal (during the grace window), the caller does not
join: a brand-new fetch is started, the fetch count increases by one, and the
map is overwritten with a fresh downloading state. -/
theorem c3_terminal_restart (s : SysState) (id : String) (t : Nat) (cb : Bool)
    (f : Nat) (fs : FetchState)
    (hl : mlookup s.downloads id = some f) (hg : s.fetches.get? f = some fs)
    (hterm : fs.pd.status.isTerminal = true) :
    fetchCount (step s (t, Event.request id cb)) id = fetchCount s id + 1 ∧
    getProgress (step s (t, Event.request id cb)) id = some (freshPd id) := by
  have hstep : step s (t, Event.request id cb) =
      procRequest (fireDue { s with now := max s.now t }) id cb := rfl
  rcases mlookup_foldl_mdel_or
      ((s.evictions.filter (fun p => decide (p.2 ≤ max s.now t))).map (fun p => p.1))
      s.downloads id with hnone | hsame
  · have hl1 : mlookup (fireDue { s with now := max s.now t }).downloads id = none := hnone
    rw [hstep, procRequest_start_none _ id cb hl1]
    exact ⟨fetchCount_startFetch_self _ id cb, getProgress_startFetch _ id cb⟩
  · have hl1 : mlookup (fireDue { s with now := max s.now t }).downloads id = some f :=
      hsame.trans hl
    have hg1 : (fireDue { s with now := max s.now t }).fetches.get? f = some fs := hg
    rw [hstep, procRequest_start_term _ id cb f fs hl1 hg1
      (isTerminal_ne_downloading _ hterm)]
    exact ⟨fetchCount_startFetch_self _ id cb, getProgress_startFetch _ id cb⟩

/-- Witness for C3 (amended): a request during the grace window after a
completed download starts a second fetch. -/
theorem c3_terminal_restart_witness :
    mlookup (run SysState.init
      [(0, Event.request "m1" false), (1, Event.complete 0 5)]).downloads "m1" = some 0 ∧
    ((run SysState.init
      [(0, Event.request "m1" false), (1, Event.complete 0 5)]).fetches.get? 0).map
        (fun fs => fs.pd.status.isTerminal) = some true ∧
    (fetchCount (step (run SysState.init
        [(0, Event.request "m1" false), (1, Event.complete 0 5)])
        (2, Event.request "m1" false)) "m1" =
      fetchCount (run SysState.init
        [(0, Event.request "m1" false), (1, Event.complete 0 5)]) "m1" + 1 ∧
     getProgress (step (run SysState.init
        [(0, Event.request "m1" false), (1, Event.complete 0 5)])
        (2, Event.request "m1" false)) "m1" = some (freshPd "m1")) := by
  refine ⟨by decide, by decide, ?_⟩
  exact c3_terminal_restart (run SysState.init
      [(0, Event.request "m1" false), (1, Event.complete 0 5)]) "m1" 2 false 0
    ((run SysState.init
      [(0, Event.request "m1" false), (1, Event.complete 0 5)]).fetches.get 
        ⟨0, by decide⟩)
    (by decide) (by decide) (by decide)

/-- Counterexample to C2 as stated: `waitForDownload` resolves joiners with
`resolve(null)` (line 231), not with the fetched resource handle — here the
original requester's promise resolves with handle 7 while the joiner's
resolves with null. -/
theorem c2_counterexample :
    (run SysState.init [(0, Event.request "m1" false), (0, Event.request "m1" false),
      (1, Event.complete 0 7), (2, Event.poll 0)]).joiners.get? 0 =
      some ⟨"m1", some (Except.ok none)⟩ ∧
    ((run SysState.init [(0, Event.request "m1" false), (0, Event.request "m1" false),
      (1, Event.complete 0 7), (2, Event.poll 0)]).fetches.get? 0).map
      (fun fs => fs.outcome) = some (some (Except.ok (some 7))) ∧
    (none : Option Nat) ≠ some 7 :=
  ⟨by decide, by decide, by decide⟩

/-- Claim C2 (amended): a joiner's promise settles at most once — once an
outcome is recorded no step changes it — and a polling tick taken while the
joined state is terminal and not yet evicted settles the joiner: with
resolution value null (not the fetched handle) when the status is completed,
and with an error message `errorMessage || 'Download failed'` when the status
is error. -/
theorem c2_joiner_settlement :
    (∀ (s : SysState) (te : Nat × Event) (j : Nat) (js : JoinerState)
      (o : Except String (Option Nat)),
      s.joiners.get? j = some js → js.outcome = some o →
      ∃ js', (step s te).joiners.get? j = some js' ∧ js'.outcome = some o) ∧
    (∀ (s : SysState) (t j : Nat) (js : JoinerState) (pd : DownloadProgress),
      s.joiners.get? j = some js → js.outcome = none →
      getProgress s js.modelId = some pd →
      (∀ p ∈ s.evictions, p.1 = js.modelId → ¬ p.2 ≤ max s.now t) →
      (pd.status = Status.completed →
        (step s (t, Event.poll j)).joiners.get? j =
          some ⟨js.modelId, some (Except.ok none)⟩) ∧
      (pd.status = Status.error →
        (step s (t, Event.poll j)).joiners.get? j =
          some ⟨js.modelId, some (Except.error (jsOrDefault pd.error "Download failed"))⟩)) := by
  constructor
  · intro s te j js o hj ho
    exact settled_stable s te j js o hj ho
  · intro s t j js pd hj ho hgp hev
    have hgp1 : getProgress (fireDue { s with now := max s.now t }) js.modelId = some pd := by
      rw [fireDue_getProgress_notdue { s with now := max s.now t } js.modelId hev]
      exact hgp
    constructor
    · intro hst
      exact step_poll_settles s t j js hj ho (Except.ok none)
        (pollOutcome_completed _ _ pd hgp1 hst)
    · intro hst
      exact step_poll_settles s t j js hj ho
        (Except.error (jsOrDefault pd.error "Download failed"))
        (pollOutcome_error_case _ _ pd hgp1 hst)

/-- Witness for C2 (amended): a settled joiner stays settled across a later
event, and an unsettled joiner polling a completed state resolves with null. -/
theorem c2_joiner_settlement_witness :
    ((run SysState.init [(0, Event.request "m1" false), (0, Event.request "m1" false),
        (1, Event.complete 0 7), (2, Event.poll 0)]).joiners.get? 0 =
      some ⟨"m1", some (Except.ok none)⟩ ∧
     (∃ js', (step (run SysState.init
        [(0, Event.request "m1" false), (0, Event.request "m1" false),
         (1, Event.complete 0 7), (2, Event.poll 0)]) (3, Event.poll 0)).joiners.get? 0 =
        some js' ∧ js'.outcome = some (Except.ok none))) ∧
    ((run SysState.init [(0, Event.request "m1" false), (0, Event.request "m1" false),
        (1, Event.complete 0 7)]).joiners.get? 0 = some ⟨"m1", none⟩ ∧
     (step (run SysState.init [(0, Event.request "m1" false), (0, Event.request "m1" false),
        (1, Event.complete 0 7)]) (2, Event.poll 0)).joiners.get? 0 =
      some ⟨"m1", some (Except.ok none)⟩) := by
  constructor
  · refine ⟨by decide, ?_⟩
    exact c2_joiner_settlement.1 (run SysState.init
        [(0, Event.request "m1" false), (0, Event.request "m1" false),
         (1, Event.complete 0 7), (2, Event.poll 0)]) (3, Event.poll 0) 0
      ⟨"m1", some (Except.ok none)⟩ (Except.ok none) (by decide) rfl
  · refine ⟨by decide, ?_⟩
    have hmain := (c2_joiner_settlement.2 (run SysState.init
        [(0, Event.request "m1" false), (0, Event.request "m1" false),
         (1, Event.complete 0 7)]) 2 0 ⟨"m1", none⟩
      ⟨"m1", Status.completed, 100, 0, 0, 0, 0, none⟩ (by decide) rfl (by decide)
      (by decide)).1 rfl
    exact hmain

/-- Claim C10: whenever a joiner's polling tick finds no entry for its
identity in the active-downloads map — after eviction fired while it was
still waiting, or because the entry never existed — the joiner's promise
rejects with an error whose message is exactly Download cancelled, a path
independent of any fetch failure (line 226). -/
theorem c10_cancelled (s : SysState) (t j : Nat) (js : JoinerState)
    (hj : s.joiners.get? j = some js) (ho : js.outcome = none)
    (habs : getProgress s js.modelId = none) :
    (step s (t, Event.poll j)).joiners.get? j =
      some ⟨js.modelId, some (Except.error "Download cancelled")⟩ := by
  have habs1 : getProgress (fireDue { s with now := max s.now t }) js.modelId = none :=
    fireDue_getProgress_none { s with now := max s.now t } js.modelId habs
  exact step_poll_settles s t j js hj ho (Except.error "Download cancelled")
    (pollOutcome_absent _ _ habs1)

/-- Witness for C10: the joiner is still waiting when the eviction timer
fires 5 seconds after completion; its next poll finds the entry gone and
rejects with Download cancelled. -/
theorem c10_cancelled_witness :
    ((run SysState.init [(0, Event.request "m1" false), (0, Event.request "m1" false),
        (1, Event.complete 0 3), (6000, Event.sample 0 ⟨false, false, 0, 0⟩)]).joiners.get? 0 =
      some ⟨"m1", none⟩ ∧
     getProgress (run SysState.init [(0, Event.request "m1" false),
        (0, Event.request "m1" false), (1, Event.complete 0 3),
        (6000, Event.sample 0 ⟨false, false, 0, 0⟩)]) "m1" = none) ∧
    (step (run SysState.init [(0, Event.request "m1" false), (0, Event.request "m1" false),
        (1, Event.complete 0 3), (6000, Event.sample 0 ⟨false, false, 0, 0⟩)])
      (6100, Event.poll 0)).joiners.get? 0 =
      some ⟨"m1", some (Except.error "Download cancelled")⟩ := by
  refine ⟨⟨by decide, by decide⟩, ?_⟩
  exact c10_cancelled (run SysState.init [(0, Event.request "m1" false),
      (0, Event.request "m1" false), (1, Event.complete 0 3),
      (6000, Event.sample 0 ⟨false, false, 0, 0⟩)]) 6100 0 ⟨"m1", none⟩
    (by decide) rfl (by decide)

/-- Counterexample to C7 as stated: a fetch rejection whose `Error` message
is the empty string is recorded verbatim as `errorMessage`, but the joiner
does not receive that error — `progress.error || 'Download failed'`
(line 233) treats the empty string as falsy and substitutes
Download failed. -/
theorem c7_counterexample :
    (getProgress (run SysState.init [(0, Event.request "m2" false),
        (0, Event.request "m2" false), (1, Event.fail 0 (some ""))]) "m2").map
      (fun pd => pd.error) = some (some "") ∧
    (run SysState.init [(0, Event.request "m2" false), (0, Event.request "m2" false),
      (1, Event.fail 0 (some "")), (2, Event.poll 0)]).joiners.get? 0 =
      some ⟨"m2", some (Except.error "Download failed")⟩ ∧
    "Download failed" ≠ "" :=
  ⟨by decide, by decide, by decide⟩

/-- Claim C7 (amended): on fetch failure with an `Error` carrying a non-empty
message, the coordinator sets status error with that message verbatim,
appends the error snapshot to the notification log, schedules eviction,
rejects the original caller with the failure, and a joiner polling the
un-evicted error state rejects with a fresh error carrying the same
message. -/
theorem c7_failure :
    (∀ (s : SysState) (t f : Nat) (fs : FetchState) (m : String),
      s.fetches.get? f = some fs → fs.inFlight = true →
      ∃ fs', (step s (t, Event.fail f (some m))).fetches.get? f = some fs' ∧
        fs'.pd.status = Status.error ∧
        fs'.pd.error = some m ∧
        fs'.outcome = some (Except.error (some m)) ∧
        (step s (t, Event.fail f (some m))).log = s.log ++
          [(fs.pd.modelId, { fs.pd with status := Status.error, error := some m })] ∧
        (fs.pd.modelId, max s.now t + 5000) ∈ (step s (t, Event.fail f (some m))).evictions) ∧
    (∀ (s : SysState) (t j : Nat) (js : JoinerState) (pd : DownloadProgress) (m : String),
      s.joiners.get? j = some js → js.outcome = none →
      getProgress s js.modelId = some pd → pd.status = Status.error →
      pd.error = some m → m ≠ "" →
      (∀ p ∈ s.evictions, p.1 = js.modelId → ¬ p.2 ≤ max s.now t) →
      (step s (t, Event.poll j)).joiners.get? j =
        some ⟨js.modelId, some (Except.error m)⟩) := by
  constructor
  · intro s t f fs m hget hin
    have hstep : step s (t, Event.fail f (some m)) =
        procFail (fireDue { s with now := max s.now t }) f (some m) := rfl
    have hget1 : (fireDue { s with now := max s.now t }).fetches.get? f = some fs := hget
    have heq := procFail_eq (fireDue { s with now := max s.now t }) f (some m) fs hget1 hin
    refine ⟨{ fs with
        pd := { fs.pd with status := Status.error, error := some m },
        inFlight := false, outcome := some (Except.error (some m)) },
      ?_, rfl, rfl, rfl, ?_, ?_⟩
    · rw [hstep, heq]
      show ((fireDue { s with now := max s.now t }).fetches.set f _).get? f = some _
      exact List.get?_set_eq_of_lt _ (List.get?_eq_some.mp hget1).1
    · rw [hstep, heq]
      rfl
    · rw [hstep, heq]
      show (fs.pd.modelId, max s.now t + 5000) ∈
        (fireDue { s with now := max s.now t }).evictions ++ [(fs.pd.modelId, max s.now t + 5000)]
      exact List.mem_append.mpr (Or.inr (List.mem_singleton.mpr rfl))
  · intro s t j js pd m hj ho hgp hst herr hne hev
    have hgp1 : getProgress (fireDue { s with now := max s.now t }) js.modelId = some pd := by
      rw [fireDue_getProgress_notdue { s with now := max s.now t } js.modelId hev]
      exact hgp
    have hjs : jsOrDefault pd.error "Download failed" = m := by
      rw [herr]
      unfold jsOrDefault
      simp only [if_neg hne]
    have := step_poll_settles s t j js hj ho
      (Except.error (jsOrDefault pd.error "Download failed"))
      (pollOutcome_error_case _ _ pd hgp1 hst)
    rw [hjs] at this
    exact this

/-- Witness for C7 (amended): a rejection with message network timeout is
recorded verbatim, the original caller rejects with it, and a joiner polling
the error state rejects with the same message. -/
theorem c7_failure_witness :
    ((run SysState.init [(0, Event.request "m2" false), (0, Event.request "m2" false)]).fetches.get? 0 =
      some ⟨freshPd "m2", ⟨0, 0⟩, true, none⟩ ∧
     (∃ fs', (step (run SysState.init [(0, Event.request "m2" false),
          (0, Event.request "m2" false)]) (1, Event.fail 0 (some "network timeout"))).fetches.get? 0 =
        some fs' ∧
        fs'.pd.status = Status.error ∧
        fs'.pd.error = some "network timeout" ∧
        fs'.outcome = some (Except.error (some "network timeout")) ∧
        (step (run SysState.init [(0, Event.request "m2" false),
          (0, Event.request "m2" false)]) (1, Event.fail 0 (some "network timeout"))).log =
          (run SysState.init [(0, Event.request "m2" false),
            (0, Event.request "m2" false)]).log ++
          [((freshPd "m2").modelId,
            { (freshPd "m2") with status := Status.error, error := some "network timeout" })] ∧
        ((freshPd "m2").modelId, 1 + 5000) ∈
          (step (run SysState.init [(0, Event.request "m2" false),
            (0, Event.request "m2" false)]) (1, Event.fail 0 (some "network timeout"))).evictions)) ∧
    (step (run SysState.init [(0, Event.request "m2" false), (0, Event.request "m2" false),
        (1, Event.fail 0 (some "network timeout"))]) (2, Event.poll 0)).joiners.get? 0 =
      some ⟨"m2", some (Except.error "network timeout")⟩ := by
  constructor
  · refine ⟨by decide, ?_⟩
    exact c7_failure.1 (run SysState.init [(0, Event.request "m2" false),
        (0, Event.request "m2" false)]) 1 0 ⟨freshPd "m2", ⟨0, 0⟩, true, none⟩
      "network timeout" (by decide) rfl
  · exact c7_failure.2 (run SysState.init [(0, Event.request "m2" false),
        (0, Event.request "m2" false), (1, Event.fail 0 (some "network timeout"))]) 2 0
      ⟨"m2", none⟩ ⟨"m2", Status.error, 0, 0, 0, 0, 0, some "network timeout"⟩
      "network timeout" (by decide) rfl (by decide) rfl rfl (by decide) (by decide)

/-- Claim C8: eviction semantics.  (1) A terminal transition schedules
removal of the identity's state exactly 5000 ms later; (2) once a pending
eviction's fire time is reached, any event other than a new request for that
identity leaves both the state map and the subscriber list without an entry
for it, so getProgress reports absent strictly after the grace delay;
(3) before the fire time the map entry is untouched by non-request events;
(4) a subsequent request for an identity with no map entry starts a
brand-new fetch with a fresh downloading state. -/
theorem c8_eviction :
    (∀ (s : SysState) (t f h : Nat) (fs : FetchState),
      s.fetches.get? f = some fs → fs.inFlight = true →
      (fs.pd.modelId, max s.now t + 5000) ∈ (step s (t, Event.complete f h)).evictions) ∧
    (∀ (s : SysState) (t : Nat) (e : Event) (id : String) (ft : Nat),
      (id, ft) ∈ s.evictions → ft ≤ max s.now t →
      (∀ cb, e ≠ Event.request id cb) →
      mlookup (step s (t, e)).downloads id = none ∧
      mlookup (step s (t, e)).subscribers id = none) ∧
    (∀ (s : SysState) (t : Nat) (e : Event) (id : String),
      (∀ p ∈ s.evictions, p.1 = id → ¬ p.2 ≤ max s.now t) →
      (∀ cb, e ≠ Event.request id cb) →
      mlookup (step s (t, e)).downloads id = mlookup s.downloads id) ∧
    (∀ (s : SysState) (t : Nat) (id : String) (cb : Bool),
      mlookup s.downloads id = none →
      getProgress (step s (t, Event.request id cb)) id = some (freshPd id) ∧
      fetchCount (step s (t, Event.request id cb)) id = fetchCount s id + 1) := by
  refine ⟨?_, ?_, ?_, ?_⟩
  · intro s t f h fs hget hin
    have hget1 : (fireDue { s with now := max s.now t }).fetches.get? f = some fs := hget
    have heq := procComplete_eq (fireDue { s with now := max s.now t }) f h fs hget1 hin
    show (fs.pd.modelId, max s.now t + 5000) ∈
      (procComplete (fireDue { s with now := max s.now t }) f h).evictions
    rw [heq]
    exact List.mem_append.mpr (Or.inr (List.mem_singleton.mpr rfl))
  · intro s t e id ft hmem hle hnr
    have hdue : id ∈ (s.evictions.filter
        (fun p => decide (p.2 ≤ max s.now t))).map (fun p => p.1) :=
      List.mem_map.mpr ⟨(id, ft),
        List.mem_filter.mpr ⟨hmem, decide_eq_true hle⟩, rfl⟩
    have h1d : mlookup (fireDue { s with now := max s.now t }).downloads id = none :=
      mlookup_foldl_mdel_mem _ _ _ hdue
    have h1s : mlookup (fireDue { s with now := max s.now t }).subscribers id = none :=
      mlookup_foldl_mdel_mem _ _ _ hdue
    cases e with
    | request id' cb =>
      have hne : id ≠ id' := by
        intro hh
        exact hnr cb (by rw [hh])
      constructor
      · show mlookup (procRequest (fireDue { s with now := max s.now t }) id' cb).downloads
          id = none
        rw [procRequest_downloads_ne _ id id' cb hne]
        exact h1d
      · show mlookup (procRequest (fireDue { s with now := max s.now t }) id' cb).subscribers
          id = none
        rw [procRequest_subscribers_ne _ id id' cb hne]
        exact h1s
    | sample f raw =>
      exact ⟨by rw [show (step s (t, Event.sample f raw)).downloads =
          (procSample (fireDue { s with now := max s.now t }) f raw).downloads from rfl,
          procSample_downloads]; exact h1d,
        by rw [show (step s (t, Event.sample f raw)).subscribers =
          (procSample (fireDue { s with now := max s.now t }) f raw).subscribers from rfl,
          procSample_subscribers]; exact h1s⟩
    | complete f h =>
      exact ⟨by rw [show (step s (t, Event.complete f h)).downloads =
          (procComplete (fireDue { s with now := max s.now t }) f h).downloads from rfl,
          procComplete_downloads]; exact h1d,
        by rw [show (step s (t, Event.complete f h)).subscribers =
          (procComplete (fireDue { s with now := max s.now t }) f h).subscribers from rfl,
          procComplete_subscribers]; exact h1s⟩
    | fail f e' =>
      exact ⟨by rw [show (step s (t, Event.fail f e')).downloads =
          (procFail (fireDue { s with now := max s.now t }) f e').downloads from rfl,
          procFail_downloads]; exact h1d,
        by rw [show (step s (t, Event.fail f e')).subscribers =
          (procFail (fireDue { s with now := max s.now t }) f e').subscribers from rfl,
          procFail_subscribers]; exact h1s⟩
    | poll j =>
      exact ⟨by rw [show (step s (t, Event.poll j)).downloads =
          (procPoll (fireDue { s with now := max s.now t }) j).downloads from rfl,
          procPoll_downloads]; exact h1d,
        by rw [show (step s (t, Event.poll j)).subscribers =
          (procPoll (fireDue { s with now := max s.now t }) j).subscribers from rfl,
          procPoll_subscribers]; exact h1s⟩
  · intro s t e id hnev hnr
    have h1d : mlookup (fireDue { s with now := max s.now t }).downloads id =
        mlookup s.downloads id :=
      fireDue_downloads_notdue { s with now := max s.now t } id hnev
    cases e with
    | request id' cb =>
      have hne : id ≠ id' := by
        intro hh
        exact hnr cb (by rw [hh])
      show mlookup (procRequest (fireDue { s with now := max s.now t }) id' cb).downloads
        id = mlookup s.downloads id
      rw [procRequest_downloads_ne _ id id' cb hne]
      exact h1d
    | sample f raw =>
      rw [show (step s (t, Event.sample f raw)).downloads =
        (procSample (fireDue { s with now := max s.now t }) f raw).downloads from rfl,
        procSample_downloads]
      exact h1d
    | complete f h =>
      rw [show (step s (t, Event.complete f h)).downloads =
        (procComplete (fireDue { s with now := max s.now t }) f h).downloads from rfl,
        procComplete_downloads]
      exact h1d
    | fail f e' =>
      rw [show (step s (t, Event.fail f e')).downloads =
        (procFail (fireDue { s with now := max s.now t }) f e').downloads from rfl,
        procFail_downloads]
      exact h1d
    | poll j =>
      rw [show (step s (t, Event.poll j)).downloads =
        (procPoll (fireDue { s with now := max s.now t }) j).downloads from rfl,
        procPoll_downloads]
      exact h1d
  · intro s t id cb hl
    have h1 : mlookup (fireDue { s with now := max s.now t }).downloads id = none :=
      mlookup_foldl_mdel_none _ _ _ hl
    have hstep : step s (t, Event.request id cb) =
        procRequest (fireDue { s with now := max s.now t }) id cb := rfl
    rw [hstep, procRequest_start_none _ id cb h1]
    exact ⟨getProgress_startFetch _ id cb, fetchCount_startFetch_self _ id cb⟩

/-- Witness for C8 at concrete traces: completion schedules the timer for
5000 ms later; at 6000 ms the entry is gone (any non-request event); at
2000 ms it is untouched; and a request after eviction starts fetch number
two with a fresh downloading state. -/
theorem c8_eviction_witness :
    (("m1", 1 + 5000) ∈ (step (run SysState.init [(0, Event.request "m1" false)])
        (1, Event.complete 0 5)).evictions) ∧
    (mlookup (step (run SysState.init [(0, Event.request "m1" true),
        (1, Event.complete 0 5)]) (6000, Event.poll 9)).downloads "m1" = none ∧
     mlookup (step (run SysState.init [(0, Event.request "m1" true),
        (1, Event.complete 0 5)]) (6000, Event.poll 9)).subscribers "m1" = none) ∧
    (mlookup (step (run SysState.init [(0, Event.request "m1" true),
        (1, Event.complete 0 5)]) (2000, Event.poll 9)).downloads "m1" =
      mlookup (run SysState.init [(0, Event.request "m1" true),
        (1, Event.complete 0 5)]).downloads "m1") ∧
    (getProgress (step (run SysState.init [(0, Event.request "m1" true),
        (1, Event.complete 0 5), (6000, Event.poll 9)])
        (7000, Event.request "m1" false)) "m1" = some (freshPd "m1") ∧
     fetchCount (step (run SysState.init [(0, Event.request "m1" true),
        (1, Event.complete 0 5), (6000, Event.poll 9)])
        (7000, Event.request "m1" false)) "m1" =
      fetchCount (run SysState.init [(0, Event.request "m1" true),
        (1, Event.complete 0 5), (6000, Event.poll 9)]) "m1" + 1) := by
  refine ⟨?_, ?_, ?_, ?_⟩
  · have hc := c8_eviction.1 (run SysState.init [(0, Event.request "m1" false)])
      1 0 5 ⟨freshPd "m1", ⟨0, 0⟩, true, none⟩ (by decide) rfl
    exact hc
  · exact c8_eviction.2.1 (run SysState.init [(0, Event.request "m1" true),
        (1, Event.complete 0 5)]) 6000 (Event.poll 9) "m1" 5001 (by decide) (by decide)
      (fun cb h => by cases h)
  · exact c8_eviction.2.2.1 (run SysState.init [(0, Event.request "m1" true),
        (1, Event.complete 0 5)]) 2000 (Event.poll 9) "m1" (by decide)
      (fun cb h => by cases h)
  · exact c8_eviction.2.2.2 (run SysState.init [(0, Event.request "m1" true),
        (1, Event.complete 0 5), (6000, Event.poll 9)]) 7000 "m1" false (by decide)

end SigmaCache
